import Mathlib

/-!
Verification development for the SQL-schema RAG catalog service.

This file shallowly embeds the core components of the repository:

* `src/models/schema.py` — the passive schema value types (`Column`,
  `ForeignKey`, `Index`, `Table`);
* `src/utils/sql_parser.py` — the MySQL table-body parser
  (`MySQLSchemaParser._parse_mysql_table_definition`) and the PostgreSQL
  dump parser (`PostgreSQLSchemaParser.parse`);
* `src/ingest/entities_catalog.py` — the entity-catalog builder
  (`EntityCatalogBuilder` and `build_entity_catalog`) over an explicit
  store state with "already exists" create semantics;
* `src/utils/chunk_formatter.py` — `format_chunks_hierarchical`.

Text is modelled as `List Char`; Python string operations (`strip`,
`split`, `upper`, `in`, regex matching) are embedded as executable
functions over character lists.  `str.upper`/`str.lower`/`isalnum` are
modelled at ASCII level, which matches the ASCII DDL inputs the parsers
are written for.  The concrete regular expressions of the source are
embedded as deterministic scanners; where Python's backtracking engine
is deterministic on the pattern in question (disjoint character classes
on both sides of a quantifier), the scanner uses maximal munch, which
yields the same match.
-/

/-- Single quote character (written via its code point). -/
def sqCh : Char := Char.ofNat 39

/-- Double quote character. -/
def dqCh : Char := Char.ofNat 34

/-- Backtick character. -/
def btickCh : Char := Char.ofNat 96

/-- Python `\s` on ASCII: space, tab, newline, carriage return, vertical tab, form feed. -/
def isSpaceCh (c : Char) : Bool :=
  c == ' ' || c == '\t' || c == '\n' || c == '\r' || c == Char.ofNat 11 || c == Char.ofNat 12

/-- ASCII digit. -/
def isDigitCh (c : Char) : Bool := '0' ≤ c && c ≤ '9'

/-- ASCII letter. -/
def isAlphaCh (c : Char) : Bool := ('a' ≤ c && c ≤ 'z') || ('A' ≤ c && c ≤ 'Z')

/-- Python `\w` on ASCII: letter, digit or underscore. -/
def isWordCh (c : Char) : Bool := isAlphaCh c || isDigitCh c || c == '_'

/-- ASCII upper-casing of one character (model of Python `str.upper`). -/
def upCh (c : Char) : Char :=
  if 'a' ≤ c && c ≤ 'z' then Char.ofNat (c.toNat - 32) else c

/-- ASCII lower-casing of one character (model of Python `str.lower`). -/
def downCh (c : Char) : Char :=
  if 'A' ≤ c && c ≤ 'Z' then Char.ofNat (c.toNat + 32) else c

/-- ASCII upper-casing of a character list. -/
def upperL (l : List Char) : List Char := l.map upCh

/-- ASCII lower-casing of a character list. -/
def lowerL (l : List Char) : List Char := l.map downCh

/-- `startsWithL pat l` holds when `l` begins with `pat` (model of `str.startswith`). -/
def startsWithL : List Char → List Char → Bool
  | [], _ => true
  | _ :: _, [] => false
  | a :: as, b :: bs => a == b && startsWithL as bs

/-- Case-insensitive ASCII prefix test. -/
def startsWithCI : List Char → List Char → Bool
  | [], _ => true
  | _ :: _, [] => false
  | a :: as, b :: bs => upCh a == upCh b && startsWithCI as bs

/-- `containsSub pat l`: `pat` occurs as a contiguous substring of `l`
(model of Python `pat in l` on strings). -/
def containsSub (pat : List Char) : List Char → Bool
  | [] => pat == []
  | c :: rest => startsWithL pat (c :: rest) || containsSub pat rest

/-- Python `s.split(sep)` for a one-character separator: always returns at
least one (possibly empty) field. -/
def splitOnCh (sep : Char) : List Char → List (List Char)
  | [] => [[]]
  | c :: rest =>
    match splitOnCh sep rest with
    | [] => [[]]
    | h :: t => if c == sep then [] :: h :: t else (c :: h) :: t

/-- Drop matching characters from the end of a list. -/
def dropEndWhile (p : Char → Bool) (l : List Char) : List Char :=
  (l.reverse.dropWhile p).reverse

/-- Python `str.strip()` (whitespace both ends). -/
def pyStrip (l : List Char) : List Char :=
  dropEndWhile isSpaceCh (l.dropWhile isSpaceCh)

/-- Python `str.rstrip(',')`. -/
def rstripCommas (l : List Char) : List Char :=
  dropEndWhile (· == ',') l

/-- Python `str.strip(cs)` for an explicit character set. -/
def stripSet (cs : List Char) (l : List Char) : List Char :=
  dropEndWhile (cs.contains ·) (l.dropWhile (cs.contains ·))

/-- Maximal run of `\w` characters and the remainder. -/
def wordRun (l : List Char) : List Char × List Char :=
  (l.takeWhile isWordCh, l.dropWhile isWordCh)

/-- Maximal run of `\s` characters and the remainder. -/
def spaceRun (l : List Char) : List Char × List Char :=
  (l.takeWhile isSpaceCh, l.dropWhile isSpaceCh)

/-- The characters stripped by `.strip("'\"")` in the source: both quote kinds. -/
def quoteChars : List Char := [sqCh, dqCh]

/-- The characters stripped from key lists by `.strip('` ')`: backtick and space. -/
def btickSpace : List Char := [btickCh, ' ']

/-- The characters stripped by `.strip('" ')`: double quote and space. -/
def dqSpace : List Char := [dqCh, ' ']

/-! ## Schema model (`src/models/schema.py`) -/

/-- `Column` dataclass from `src/models/schema.py`. -/
structure Column where
  name : String
  data_type : String
  nullable : Bool := true
  default : Option String := none
  comment : Option String := none
  is_primary_key : Bool := false
  is_foreign_key : Bool := false
  auto_increment : Bool := false
deriving DecidableEq, Repr

/-- `ForeignKey` dataclass from `src/models/schema.py`. -/
structure ForeignKey where
  column : String
  ref_table : String
  ref_column : String
  constraint_name : Option String := none
  on_delete : String := "NO ACTION"
  on_update : String := "NO ACTION"
deriving DecidableEq, Repr

/-- `Index` dataclass from `src/models/schema.py`. -/
structure IndexDef where
  name : String
  columns : List String
  is_unique : Bool := false
  index_type : Option String := none
deriving DecidableEq, Repr

/-- `Table` dataclass from `src/models/schema.py`. -/
structure Table where
  name : String
  database : String := "unknown"
  columns : List Column := []
  primary_keys : List String := []
  foreign_keys : List ForeignKey := []
  indexes : List IndexDef := []
  engine : String := "InnoDB"
  charset : String := "utf8mb4"
  collation : String := "utf8mb4_unicode_ci"
  comment : Option String := none
deriving DecidableEq, Repr

/-- `Table.add_column`: append the column, and record its name as a primary
key when the column carries the inline primary-key flag. -/
def addColumn (t : Table) (c : Column) : Table :=
  { t with
    columns := t.columns ++ [c],
    primary_keys := if c.is_primary_key then t.primary_keys ++ [c.name] else t.primary_keys }

/-- `Table.add_foreign_key`. -/
def addForeignKey (t : Table) (fk : ForeignKey) : Table :=
  { t with foreign_keys := t.foreign_keys ++ [fk] }

/-- `Table.add_index`. -/
def addIndex (t : Table) (i : IndexDef) : Table :=
  { t with indexes := t.indexes ++ [i] }

/-- `Table.get_column` returns the first column with the given name; the
in-place `col.is_foreign_key = True` mutation therefore marks only the
first column of that name. -/
def markFirstFK (n : String) : List Column → List Column
  | [] => []
  | c :: rest =>
    if c.name == n then { c with is_foreign_key := true } :: rest
    else c :: markFirstFK n rest

/-! ## MySQL table-body parser
(`MySQLSchemaParser._parse_mysql_table_definition`, `src/utils/sql_parser.py` lines 100–184) -/

/-- Attempt `re.search(r"DEFAULT\s+([^,\s]+)", attributes)` at the head of
the list: literal `DEFAULT`, at least one whitespace, then a maximal
nonempty run of non-comma non-whitespace characters. -/
def tryDefaultAt (l : List Char) : Option (List Char) :=
  if startsWithL "DEFAULT".data l then
    let r := l.drop 7
    let (sp, r2) := spaceRun r
    if sp.isEmpty then none
    else
      let v := r2.takeWhile (fun c => !isSpaceCh c && c ≠ ',')
      if v.isEmpty then none else some v
  else none

/-- Leftmost match of `DEFAULT\s+([^,\s]+)` (the `re.search` scan). -/
def searchDefaultVal : List Char → Option (List Char)
  | [] => none
  | c :: rest =>
    match tryDefaultAt (c :: rest) with
    | some v => some v
    | none => searchDefaultVal rest

/-- Attempt `COMMENT\s+'([^']*)'` at the head of the list. -/
def tryCommentAt (l : List Char) : Option (List Char) :=
  if startsWithL "COMMENT".data l then
    let r := l.drop 7
    let (sp, r2) := spaceRun r
    if sp.isEmpty then none
    else
      match r2 with
      | [] => none
      | q :: r3 =>
        if q == sqCh then
          let body := r3.takeWhile (· ≠ sqCh)
          if (r3.dropWhile (· ≠ sqCh)).isEmpty then none else some body
        else none
  else none

/-- Leftmost match of `COMMENT\s+'([^']*)'` (the `re.search` scan). -/
def searchCommentVal : List Char → Option (List Char)
  | [] => none
  | c :: rest =>
    match tryCommentAt (c :: rest) with
    | some v => some v
    | none => searchCommentVal rest

/-- One optional backtick, as in the `` `? `` pieces of the patterns. -/
def dropOptBtick (l : List Char) : List Char :=
  match l with
  | c :: r => if c == btickCh then r else l
  | [] => l

/-- `re.match(r'`?(\w+)`?\s+(\w+(?:\([\d,]+\))?)\s*(.*)', line)`: the
anchored column-definition match, returning (name, data type, attribute
tail).  The pattern is deterministic: every quantified class is disjoint
from what must follow it, so maximal munch coincides with the
backtracking match. -/
def matchColumnDef (l : List Char) : Option (List Char × List Char × List Char) :=
  let l0 := dropOptBtick l
  let (w1, r1) := wordRun l0
  if w1.isEmpty then none
  else
    let r2 := dropOptBtick r1
    let (sp, r3) := spaceRun r2
    if sp.isEmpty then none
    else
      let (w2, r4) := wordRun r3
      if w2.isEmpty then none
      else
        let (dtype, r5) :=
          match r4 with
          | '(' :: rr =>
            let ds := rr.takeWhile (fun c => isDigitCh c || c == ',')
            let rr2 := rr.dropWhile (fun c => isDigitCh c || c == ',')
            if ds.isEmpty then (w2, r4)
            else
              match rr2 with
              | ')' :: rr3 => (w2 ++ '(' :: (ds ++ [')']), rr3)
              | _ => (w2, r4)
          | _ => (w2, r4)
        let r6 := r5.dropWhile isSpaceCh
        some (w1, dtype, r6.takeWhile (· ≠ '\n'))

/-- Build the `Column` object from a successful column-definition match:
the attribute tail is upper-cased and scanned for `NOT NULL`,
`PRIMARY KEY`, `AUTO_INCREMENT`, a `DEFAULT` value (quotes stripped) and
an inline `COMMENT` string. -/
def columnFromMatch (w1 dtype attrs : List Char) : Column :=
  let a := upperL attrs
  { name := String.mk w1
    data_type := String.mk dtype
    nullable := !containsSub "NOT NULL".data a
    default := (searchDefaultVal a).map (fun v => String.mk (stripSet quoteChars v))
    comment := (searchCommentVal a).map String.mk
    is_primary_key := containsSub "PRIMARY KEY".data a
    is_foreign_key := false
    auto_increment := containsSub "AUTO_INCREMENT".data a }

/-- Attempt `PRIMARY KEY\s*\((.*?)\)` at the head of the list (case
insensitive); the lazy group runs to the first `)` and cannot cross a
newline. -/
def tryPKAt (l : List Char) : Option (List Char) :=
  if startsWithCI "PRIMARY KEY".data l then
    let r := (l.drop 11).dropWhile isSpaceCh
    match r with
    | [] => none
    | c :: r3 =>
      if c == '(' then
        let g := r3.takeWhile (fun x => x ≠ ')' && x ≠ '\n')
        match r3.dropWhile (fun x => x ≠ ')' && x ≠ '\n') with
        | d :: _ => if d == ')' then some g else none
        | [] => none
      else none
  else none

/-- Leftmost match of `PRIMARY KEY\s*\((.*?)\)` (the `re.search` scan). -/
def searchPKGroup : List Char → Option (List Char)
  | [] => none
  | c :: rest =>
    match tryPKAt (c :: rest) with
    | some g => some g
    | none => searchPKGroup rest

/-- Attempt `(?:KEY|INDEX)\s+`?(\w+)`?\s*\((.*?)\)` at the head of the
list (case insensitive). -/
def tryIdxAt (l : List Char) : Option (List Char × List Char) :=
  let afterKw : Option (List Char) :=
    if startsWithCI "KEY".data l then some (l.drop 3)
    else if startsWithCI "INDEX".data l then some (l.drop 5)
    else none
  match afterKw with
  | none => none
  | some r =>
    let (sp, r2) := spaceRun r
    if sp.isEmpty then none
    else
      let (nm, r3) := wordRun (dropOptBtick r2)
      if nm.isEmpty then none
      else
        let r4 := (dropOptBtick r3).dropWhile isSpaceCh
        match r4 with
        | [] => none
        | c :: r5 =>
          if c == '(' then
            let g := r5.takeWhile (fun x => x ≠ ')' && x ≠ '\n')
            match r5.dropWhile (fun x => x ≠ ')' && x ≠ '\n') with
            | d :: _ => if d == ')' then some (nm, g) else none
            | [] => none
          else none

/-- Leftmost match of the KEY/INDEX pattern (the `re.search` scan). -/
def searchIdxMatch : List Char → Option (List Char × List Char)
  | [] => none
  | c :: rest =>
    match tryIdxAt (c :: rest) with
    | some g => some g
    | none => searchIdxMatch rest

/-- Attempt the optional `(?:\s*ON\s+<kw>\s+(\w+))?` piece: on success
return the captured word and the remainder, otherwise consume nothing. -/
def tryOnClause (kw : List Char) (l : List Char) : Option String × List Char :=
  let r := l.dropWhile isSpaceCh
  if startsWithCI "ON".data r then
    let (sp1, r2) := spaceRun (r.drop 2)
    if sp1.isEmpty then (none, l)
    else if startsWithCI kw r2 then
      let (sp2, r3) := spaceRun (r2.drop kw.length)
      if sp2.isEmpty then (none, l)
      else
        let (w, r4) := wordRun r3
        if w.isEmpty then (none, l) else (some (String.mk w), r4)
    else (none, l)
  else (none, l)

/-- Attempt the MySQL foreign-key pattern
`FOREIGN KEY\s*\(`?(\w+)`?\)\s*REFERENCES\s*`?(\w+)`?\s*\(`?(\w+)`?\)`
with its two optional `ON DELETE` / `ON UPDATE` tails, at the head of
the list (case insensitive). -/
def tryFKAt (l : List Char) : Option (String × String × String × Option String × Option String) :=
  if startsWithCI "FOREIGN KEY".data l then
    let r := (l.drop 11).dropWhile isSpaceCh
    match r with
    | '(' :: r1 =>
      let (g1, r2) := wordRun (dropOptBtick r1)
      if g1.isEmpty then none
      else
        match dropOptBtick r2 with
        | ')' :: r3 =>
          let r4 := r3.dropWhile isSpaceCh
          if startsWithCI "REFERENCES".data r4 then
            let r5 := (r4.drop 10).dropWhile isSpaceCh
            let (g2, r6) := wordRun (dropOptBtick r5)
            if g2.isEmpty then none
            else
              match (dropOptBtick r6).dropWhile isSpaceCh with
              | '(' :: r7 =>
                let (g3, r8) := wordRun (dropOptBtick r7)
                if g3.isEmpty then none
                else
                  match dropOptBtick r8 with
                  | ')' :: r9 =>
                    let (onDel, r10) := tryOnClause "DELETE".data r9
                    let (onUpd, _) := tryOnClause "UPDATE".data r10
                    some (String.mk g1, String.mk g2, String.mk g3, onDel, onUpd)
                  | _ => none
              | _ => none
          else none
        | _ => none
    | _ => none
  else none

/-- Leftmost match of the foreign-key pattern (the `re.search` scan). -/
def searchFKMatch : List Char → Option (String × String × String × Option String × Option String)
  | [] => none
  | c :: rest =>
    match tryFKAt (c :: rest) with
    | some g => some g
    | none => searchFKMatch rest

/-- The cleanup applied to each body line: `line.strip().rstrip(',')`. -/
def cleanLine (l : List Char) : List Char := rstripCommas (pyStrip l)

/-- Process one logical line of a MySQL table body, mirroring the branch
order of `_parse_mysql_table_definition`: skip blank/comment lines,
then PRIMARY KEY clause, then CONSTRAINT/FOREIGN KEY, then
KEY/INDEX/UNIQUE, then column definition. -/
def processMySQLLine (t : Table) (rawLine : List Char) : Table :=
  let line := cleanLine rawLine
  if line.isEmpty then t
  else if startsWithL "--".data line then t
  else if startsWithL "PRIMARY KEY".data (upperL line) then
    match searchPKGroup line with
    | some g =>
      let pkCols := (splitOnCh ',' g).map (fun x => String.mk (stripSet btickSpace x))
      { t with
        primary_keys := t.primary_keys ++ pkCols,
        columns := t.columns.map (fun c =>
          if pkCols.contains c.name then { c with is_primary_key := true } else c) }
    | none => t
  else if startsWithL "CONSTRAINT".data (upperL line)
       || startsWithL "FOREIGN KEY".data (upperL line) then
    match searchFKMatch line with
    | some (c1, rt, rc, od, ou) =>
      let fk : ForeignKey :=
        { column := c1, ref_table := rt, ref_column := rc
          constraint_name := none
          on_delete := od.getD "NO ACTION"
          on_update := ou.getD "NO ACTION" }
      let t' := addForeignKey t fk
      { t' with columns := markFirstFK fk.column t'.columns }
    | none => t
  else if startsWithL "KEY".data (upperL line)
       || startsWithL "INDEX".data (upperL line)
       || startsWithL "UNIQUE".data (upperL line) then
    let isUnique := startsWithL "UNIQUE".data (upperL line)
    match searchIdxMatch line with
    | some (nm, g) =>
      addIndex t
        { name := String.mk nm
          columns := (splitOnCh ',' g).map (fun x => String.mk (stripSet btickSpace x))
          is_unique := isUnique
          index_type := none }
    | none => t
  else
    match matchColumnDef line with
    | some (w1, dt, at') => addColumn t (columnFromMatch w1 dt at')
    | none => t

/-- `_parse_mysql_table_definition`: split the body on newlines and fold
the per-line processing over the table under construction. -/
def parseMySQLTableDefinition (t0 : Table) (tableDef : List Char) : Table :=
  (splitOnCh '\n' tableDef).foldl processMySQLLine t0

/-- A fresh table as `MySQLSchemaParser.parse` constructs it before
filling it from the body (defaulted engine/charset/collation). -/
def freshTable (nm db : String) : Table :=
  { name := nm, database := db }

/-- Parse a MySQL table body into a fresh table (entry point used by the
claims about the body parser). -/
def mysqlBodyTable (body : String) : Table :=
  parseMySQLTableDefinition (freshTable "t" "db") body.data

/-! ## PostgreSQL dump parser
(`PostgreSQLSchemaParser`, `src/utils/sql_parser.py` lines 187–370) -/

/-- Truncate a line at the first occurrence of `--` (one `re.sub` match of
`--.*?$` in MULTILINE mode removes exactly the text from `--` to the end
of its line). -/
def truncAtDashDash : List Char → List Char
  | [] => []
  | c :: rest =>
    if startsWithL "--".data (c :: rest) then [] else c :: truncAtDashDash rest

/-- Join lines back with newlines. -/
def intercalateNL : List (List Char) → List Char
  | [] => []
  | [x] => x
  | x :: xs => x ++ '\n' :: intercalateNL xs

/-- `re.sub(r'--.*?$', '', sql, flags=re.MULTILINE)`: per line, drop
everything from the first `--` onwards. -/
def stripLineComments (l : List Char) : List Char :=
  intercalateNL ((splitOnCh '\n' l).map truncAtDashDash)

/-- Find the first `*/` and return the remainder after it. -/
def dropThroughClose : List Char → Option (List Char)
  | [] => none
  | c :: rest =>
    if startsWithL "*/".data (c :: rest) then some (rest.drop 1)
    else dropThroughClose rest

/-- `re.sub(r'/\*.*?\*/', '', sql, flags=re.DOTALL)`: remove each lazy
`/* ... */` block; an unterminated `/*` matches nothing and is kept
(fuelled scan, fuel = input length suffices as the scan consumes input). -/
def stripBlockCommentsAux : Nat → List Char → List Char
  | 0, l => l
  | _, [] => []
  | fuel + 1, c :: rest =>
    if startsWithL "/*".data (c :: rest) then
      match dropThroughClose (rest.drop 1) with
      | some rem => stripBlockCommentsAux fuel rem
      | none => c :: rest
    else c :: stripBlockCommentsAux fuel rest

/-- Remove block comments (wrapper fixing the fuel). -/
def stripBlockComments (l : List Char) : List Char :=
  stripBlockCommentsAux l.length l

/-- `_clean_sql_comments`: line comments first, then block comments. -/
def cleanSQLComments (l : List Char) : List Char :=
  stripBlockComments (stripLineComments l)

/-- Attempt the CREATE TABLE header pattern
`CREATE TABLE\s+(?:IF NOT EXISTS\s+)?(?:public\.)?(\w+)\s*\(` (case
insensitive) at the head of the list; on success return the captured
table name and the remainder just after the opening parenthesis.  The
two optional groups commit safely: whenever their literal (plus
following whitespace for `IF NOT EXISTS`) is present, the
backtracking alternative without them cannot succeed, because `\w+`
would then stop at a space or dot where `\(` is required. -/
def tryHeaderAt (l : List Char) : Option (List Char × List Char) :=
  if startsWithCI "CREATE TABLE".data l then
    let (sp, r2) := spaceRun (l.drop 12)
    if sp.isEmpty then none
    else
      let r3 :=
        if startsWithCI "IF NOT EXISTS".data r2 then
          let (sp2, r2b) := spaceRun (r2.drop 13)
          if sp2.isEmpty then r2 else r2b
        else r2
      let r4 := if startsWithCI "public.".data r3 then r3.drop 7 else r3
      let (nm, r5) := wordRun r4
      if nm.isEmpty then none
      else
        match r5.dropWhile isSpaceCh with
        | '(' :: r6 => some (nm, r6)
        | _ => none
  else none

/-- `re.finditer` over the header pattern: leftmost non-overlapping
matches, resuming after each match end (fuelled, fuel = input length). -/
def findHeadersAux : Nat → List Char → List (List Char × List Char)
  | 0, _ => []
  | _, [] => []
  | fuel + 1, c :: rest =>
    match tryHeaderAt (c :: rest) with
    | some (nm, rem) => (nm, rem) :: findHeadersAux fuel rem
    | none => findHeadersAux fuel rest

/-- All CREATE TABLE header matches in the content. -/
def findHeaders (l : List Char) : List (List Char × List Char) :=
  findHeadersAux l.length l

/-- The parenthesis-depth scan of `PostgreSQLSchemaParser.parse` (lines
211–218): consume characters, raising depth on `(` and lowering it on
`)`, and return how many characters were consumed when depth first
reaches zero (`none` when the text ends first). -/
def scanDepth : List Char → Nat → Option Nat
  | [], _ => none
  | c :: rest, depth =>
    let d' := if c == '(' then depth + 1 else if c == ')' then depth - 1 else depth
    if d' == 0 then some 1 else (scanDepth rest d').map (· + 1)

/-- First whitespace-delimited token of a line (`line.strip().split()[0]`
for a line with no leading whitespace). -/
def firstToken (l : List Char) : List Char :=
  (l.dropWhile isSpaceCh).takeWhile (fun c => !isSpaceCh c)

/-- Python `str.isalnum` at ASCII level: nonempty and all alphanumeric. -/
def isalnumL (l : List Char) : Bool :=
  !l.isEmpty && l.all (fun c => isAlphaCh c || isDigitCh c)

/-- Attempt the PostgreSQL foreign-key pattern
`FOREIGN KEY\s*\(([^)]+)\)\s*REFERENCES\s+(\w+)\s*\(([^)]+)\)` (case
insensitive) at the head of the list. -/
def tryPGFKAt (l : List Char) : Option (List Char × List Char × List Char) :=
  if startsWithCI "FOREIGN KEY".data l then
    match (l.drop 11).dropWhile isSpaceCh with
    | '(' :: r1 =>
      let g1 := r1.takeWhile (· ≠ ')')
      if g1.isEmpty then none
      else
        match r1.dropWhile (· ≠ ')') with
        | _ :: r2 =>
          let r3 := r2.dropWhile isSpaceCh
          if startsWithCI "REFERENCES".data r3 then
            let (sp, r4) := spaceRun (r3.drop 10)
            if sp.isEmpty then none
            else
              let (g2, r5) := wordRun r4
              if g2.isEmpty then none
              else
                match r5.dropWhile isSpaceCh with
                | '(' :: r6 =>
                  let g3 := r6.takeWhile (· ≠ ')')
                  if g3.isEmpty then none
                  else if (r6.dropWhile (· ≠ ')')).isEmpty then none
                  else some (g1, g2, g3)
                | _ => none
          else none
        | [] => none
    | _ => none
  else none

/-- Leftmost match of the PostgreSQL foreign-key pattern. -/
def searchPGFK : List Char → Option (List Char × List Char × List Char)
  | [] => none
  | c :: rest =>
    match tryPGFKAt (c :: rest) with
    | some g => some g
    | none => searchPGFK rest

/-- Attempt `DEFAULT\s+([^,]+)` (case insensitive) at the head of the
list: the value is the maximal nonempty run of non-comma characters. -/
def tryPGDefaultAt (l : List Char) : Option (List Char) :=
  if startsWithCI "DEFAULT".data l then
    let (sp, r2) := spaceRun (l.drop 7)
    if sp.isEmpty then none
    else
      let v := r2.takeWhile (· ≠ ',')
      if v.isEmpty then none else some v
  else none

/-- Leftmost match of `DEFAULT\s+([^,]+)`. -/
def searchPGDefault : List Char → Option (List Char)
  | [] => none
  | c :: rest =>
    match tryPGDefaultAt (c :: rest) with
    | some v => some v
    | none => searchPGDefault rest

/-- The column-definition match of the PostgreSQL path:
`(\w+)\s+(\w+(?:\([\d,]+\))?|character varying\(\d+\)|timestamp(?:\(\d+\))? without time zone)\s*(.*)`
(anchored, case insensitive).  The alternation tries the word-based
alternative first; since the pattern tail `\s*(.*)` always succeeds,
the first locally matching alternative wins, exactly as in Python. -/
def matchPGColumnDef (l : List Char) : Option (List Char × List Char × List Char) :=
  let (w1, r1) := wordRun l
  if w1.isEmpty then none
  else
    let (sp, r2) := spaceRun r1
    if sp.isEmpty then none
    else
      let alt1 : Option (List Char × List Char) :=
        let (w2, r3) := wordRun r2
        if w2.isEmpty then none
        else
          match r3 with
          | '(' :: rr =>
            let ds := rr.takeWhile (fun c => isDigitCh c || c == ',')
            let rr2 := rr.dropWhile (fun c => isDigitCh c || c == ',')
            if ds.isEmpty then some (w2, r3)
            else
              match rr2 with
              | ')' :: rr3 => some (w2 ++ '(' :: (ds ++ [')']), rr3)
              | _ => some (w2, r3)
          | _ => some (w2, r3)
      let alt2 : Option (List Char × List Char) :=
        if startsWithCI "character varying(".data r2 then
          let rr := r2.drop 18
          let ds := rr.takeWhile isDigitCh
          if ds.isEmpty then none
          else
            match rr.drop ds.length with
            | ')' :: rr2 => some (r2.take 18 ++ (ds ++ [')']), rr2)
            | _ => none
        else none
      let alt3 : Option (List Char × List Char) :=
        if startsWithCI "timestamp".data r2 then
          let rr := r2.drop 9
          let parens : Option (List Char × List Char) :=
            match rr with
            | '(' :: rr1 =>
              let ds := rr1.takeWhile isDigitCh
              if ds.isEmpty then none
              else
                match rr1.drop ds.length with
                | ')' :: rr2 => some ('(' :: (ds ++ [')']), rr2)
                | _ => none
            | _ => none
          let (pTxt, rr3) := match parens with
            | some (p, r) => (p, r)
            | none => ([], rr)
          if startsWithCI " without time zone".data rr3 then
            some (r2.take 9 ++ pTxt ++ rr3.take 18, rr3.drop 18)
          else none
        else none
      match alt1 <|> alt2 <|> alt3 with
      | some (dt, r5) =>
        let r6 := r5.dropWhile isSpaceCh
        some (w1, dt, r6.takeWhile (· ≠ '\n'))
      | none => none

/-- Process one line of a PostgreSQL table body, mirroring
`_parse_postgresql_table_definition`. -/
def processPGLine (t : Table) (rawLine : List Char) : Table :=
  let line := cleanLine rawLine
  if line.isEmpty then t
  else if startsWithL "--".data line then t
  else if containsSub "PRIMARY KEY".data (upperL line) && !isalnumL (firstToken line) then
    match searchPKGroup line with
    | some g =>
      let pkCols := (splitOnCh ',' g).map (fun x => String.mk (stripSet dqSpace x))
      { t with
        primary_keys := t.primary_keys ++ pkCols,
        columns := t.columns.map (fun c =>
          if pkCols.contains c.name then { c with is_primary_key := true } else c) }
    | none => t
  else if containsSub "FOREIGN KEY".data (upperL line) then
    match searchPGFK line with
    | some (g1, g2, g3) =>
      let fk : ForeignKey :=
        { column := String.mk (stripSet dqSpace g1)
          ref_table := String.mk g2
          ref_column := String.mk (stripSet dqSpace g3) }
      let t' := addForeignKey t fk
      { t' with columns := markFirstFK fk.column t'.columns }
    | none => t
  else
    match matchPGColumnDef line with
    | some (w1, dt, at') =>
      let a := upperL at'
      let col : Column :=
        { name := String.mk w1
          data_type := String.mk dt
          nullable := !containsSub "NOT NULL".data a
          default := (searchPGDefault a).map (fun v => String.mk (stripSet quoteChars v))
          is_primary_key := containsSub "PRIMARY KEY".data a
          auto_increment :=
            containsSub "SERIAL".data (upperL dt) || containsSub "nextval".data (lowerL a) }
      addColumn t col
    | none => t

/-- `_parse_postgresql_table_definition`: fold the per-line processing
over the newline-split body. -/
def parsePGTableDefinition (t0 : Table) (tableDef : List Char) : Table :=
  (splitOnCh '\n' tableDef).foldl processPGLine t0

/-- Attempt `COMMENT ON TABLE\s+(?:public\.)?{name}\s+IS\s+'([^']*)';`
(case insensitive) at the head of the list. -/
def tryTableCommentAt (nm : List Char) (l : List Char) : Option (List Char) :=
  if startsWithCI "COMMENT ON TABLE".data l then
    let (sp, r1) := spaceRun (l.drop 16)
    if sp.isEmpty then none
    else
      let r2 := if startsWithCI "public.".data r1 then r1.drop 7 else r1
      if startsWithCI nm r2 then
        let (sp2, r3) := spaceRun (r2.drop nm.length)
        if sp2.isEmpty then none
        else if startsWithCI "IS".data r3 then
          let (sp3, r4) := spaceRun (r3.drop 2)
          if sp3.isEmpty then none
          else
            match r4 with
            | q :: r5 =>
              if q == sqCh then
                let body := r5.takeWhile (· ≠ sqCh)
                match r5.dropWhile (· ≠ sqCh) with
                | _ :: rr => if startsWithL ";".data rr then some body else none
                | [] => none
              else none
            | [] => none
        else none
      else none
  else none

/-- Leftmost match of the table-comment pattern. -/
def searchTableComment (nm : List Char) : List Char → Option (List Char)
  | [] => none
  | c :: rest =>
    match tryTableCommentAt nm (c :: rest) with
    | some b => some b
    | none => searchTableComment nm rest

/-- Python dict assignment `self.tables[table_name] = table`: replace in
place when the key exists, append otherwise. -/
def upsertTable : List (String × Table) → String → Table → List (String × Table)
  | [], k, v => [(k, v)]
  | (k', v') :: rest, k, v =>
    if k' == k then (k, v) :: rest else (k', v') :: upsertTable rest k v

/-- Process one CREATE TABLE header match, mirroring the loop body of
`PostgreSQLSchemaParser.parse` (lines 205–247): scan for the matching
close by depth counting, require a `;` (after optional whitespace)
immediately after the close, otherwise skip the match entirely; on
acceptance parse the body, attach any `COMMENT ON TABLE` text, and
store the table. -/
def pgProcessHeader (dbName : String) (content : List Char)
    (tabs : List (String × Table)) (h : List Char × List Char) : List (String × Table) :=
  match scanDepth h.2 1 with
  | none => tabs
  | some n =>
    let tableDef := h.2.take (n - 1)
    let remaining := (h.2.drop n).dropWhile isSpaceCh
    if startsWithL ";".data remaining then
      let t0 : Table :=
        { name := String.mk h.1, database := dbName
          engine := "PostgreSQL", charset := "UTF8", collation := "en_US.UTF-8" }
      let t1 := parsePGTableDefinition t0 tableDef
      let t2 :=
        match searchTableComment h.1 content with
        | some cm => { t1 with comment := some (String.mk cm) }
        | none => t1
      upsertTable tabs (String.mk h.1) t2
    else tabs

/-- Attempt the ALTER TABLE primary-key pattern
`ALTER TABLE\s+(?:ONLY\s+)?(?:public\.)?(\w+)\s+ADD CONSTRAINT\s+\w+_pkey\s+PRIMARY KEY\s*\(([^)]+)\)`
(case insensitive) given the text just after `ALTER TABLE\s+` and any
consumed optional prefixes: shared tail helper. -/
def tryAlterPKTail (r : List Char) : Option (List Char × List Char × List Char) :=
  let r4 := if startsWithCI "public.".data r then r.drop 7 else r
  let (nm, r5) := wordRun r4
  if nm.isEmpty then none
  else
    let (sp2, r6) := spaceRun r5
    if sp2.isEmpty then none
    else if startsWithCI "ADD CONSTRAINT".data r6 then
      let (sp3, r7) := spaceRun (r6.drop 14)
      if sp3.isEmpty then none
      else
        let (w, r8) := wordRun r7
        if w.length < 6 || !startsWithL "_pkey".data (w.drop (w.length - 5)) then none
        else
          let (sp4, r9) := spaceRun r8
          if sp4.isEmpty then none
          else if startsWithCI "PRIMARY KEY".data r9 then
            match (r9.drop 11).dropWhile isSpaceCh with
            | '(' :: r10 =>
              let g := r10.takeWhile (· ≠ ')')
              if g.isEmpty then none
              else
                match r10.dropWhile (· ≠ ')') with
                | _ :: r11 => some (nm, g, r11)
                | [] => none
            | _ => none
          else none
    else none

/-- Attempt the full ALTER TABLE primary-key pattern at the head of the
list.  The `(?:ONLY\s+)?` option is tried greedily first and the bare
alternative second, as the backtracking engine does. -/
def tryAlterPKAt (l : List Char) : Option (List Char × List Char × List Char) :=
  if startsWithCI "ALTER TABLE".data l then
    let (sp, r1) := spaceRun (l.drop 11)
    if sp.isEmpty then none
    else
      let withOnly : Option (List Char × List Char × List Char) :=
        if startsWithCI "ONLY".data r1 then
          let (sp2, r2) := spaceRun (r1.drop 4)
          if sp2.isEmpty then none else tryAlterPKTail r2
        else none
      match withOnly with
      | some res => some res
      | none => tryAlterPKTail r1
  else none

/-- `re.finditer` over the ALTER TABLE primary-key pattern (fuelled scan;
matches cannot overlap because the scan resumes past each match, and a
successful match consumes at least the `ALTER TABLE` literal). -/
def findAlterPKAux : Nat → List Char → List (List Char × List Char)
  | 0, _ => []
  | _, [] => []
  | fuel + 1, c :: rest =>
    match tryAlterPKAt (c :: rest) with
    | some (nm, g, rem) => (nm, g) :: findAlterPKAux fuel rem
    | none => findAlterPKAux fuel rest

/-- All ALTER TABLE primary-key matches. -/
def findAlterPK (l : List Char) : List (List Char × List Char) :=
  findAlterPKAux l.length l

/-- Shared tail of the ALTER TABLE foreign-key pattern after the optional
`ONLY`/`public.` prefixes. -/
def tryAlterFKTail (r : List Char) :
    Option (List Char × List Char × List Char × List Char × List Char × List Char) :=
  let r4 := if startsWithCI "public.".data r then r.drop 7 else r
  let (nm, r5) := wordRun r4
  if nm.isEmpty then none
  else
    let (sp2, r6) := spaceRun r5
    if sp2.isEmpty then none
    else if startsWithCI "ADD CONSTRAINT".data r6 then
      let (sp3, r7) := spaceRun (r6.drop 14)
      if sp3.isEmpty then none
      else
        let (cn, r8) := wordRun r7
        if cn.isEmpty then none
        else
          let (sp4, r9) := spaceRun r8
          if sp4.isEmpty then none
          else if startsWithCI "FOREIGN KEY".data r9 then
            match (r9.drop 11).dropWhile isSpaceCh with
            | '(' :: r10 =>
              let g1 := r10.takeWhile (· ≠ ')')
              if g1.isEmpty then none
              else
                match r10.dropWhile (· ≠ ')') with
                | _ :: r11 =>
                  let r12 := r11.dropWhile isSpaceCh
                  if startsWithCI "REFERENCES".data r12 then
                    let (sp5, r13) := spaceRun (r12.drop 10)
                    if sp5.isEmpty then none
                    else
                      let r14 := if startsWithCI "public.".data r13 then r13.drop 7 else r13
                      let (rt, r15) := wordRun r14
                      if rt.isEmpty then none
                      else
                        match r15.dropWhile isSpaceCh with
                        | '(' :: r16 =>
                          let g2 := r16.takeWhile (· ≠ ')')
                          if g2.isEmpty then none
                          else
                            match r16.dropWhile (· ≠ ')') with
                            | _ :: r17 => some (nm, cn, g1, rt, g2, r17)
                            | [] => none
                        | _ => none
                  else none
                | [] => none
            | _ => none
          else none
    else none

/-- Attempt the full ALTER TABLE foreign-key pattern at the head of the
list. -/
def tryAlterFKAt (l : List Char) :
    Option (List Char × List Char × List Char × List Char × List Char × List Char) :=
  if startsWithCI "ALTER TABLE".data l then
    let (sp, r1) := spaceRun (l.drop 11)
    if sp.isEmpty then none
    else
      let withOnly :=
        if startsWithCI "ONLY".data r1 then
          let (sp2, r2) := spaceRun (r1.drop 4)
          if sp2.isEmpty then none else tryAlterFKTail r2
        else none
      match withOnly with
      | some res => some res
      | none => tryAlterFKTail r1
  else none

/-- All ALTER TABLE foreign-key matches (fuelled scan). -/
def findAlterFKAux : Nat → List Char → List (List Char × List Char × List Char × List Char × List Char)
  | 0, _ => []
  | _, [] => []
  | fuel + 1, c :: rest =>
    match tryAlterFKAt (c :: rest) with
    | some (nm, cn, g1, rt, g2, rem) => (nm, cn, g1, rt, g2) :: findAlterFKAux fuel rem
    | none => findAlterFKAux fuel rest

/-- All ALTER TABLE foreign-key matches. -/
def findAlterFK (l : List Char) : List (List Char × List Char × List Char × List Char × List Char) :=
  findAlterFKAux l.length l

/-- `_parse_postgresql_primary_keys`: apply each ALTER TABLE primary-key
match to the already-parsed table of that name (a match for an unknown
table is ignored). -/
def applyAlterPKs (content : List Char) (tabs : List (String × Table)) : List (String × Table) :=
  (findAlterPK content).foldl
    (fun ts m =>
      let tn := String.mk m.1
      let pkCols := (splitOnCh ',' m.2).map (fun x => String.mk (stripSet dqSpace x))
      ts.map (fun kv =>
        if kv.1 == tn then
          (kv.1,
            { kv.2 with
              primary_keys := kv.2.primary_keys ++ pkCols,
              columns := kv.2.columns.map (fun c =>
                if pkCols.contains c.name then { c with is_primary_key := true } else c) })
        else kv))
    tabs

/-- `_parse_postgresql_foreign_keys`: apply each ALTER TABLE foreign-key
match to the already-parsed table of that name. -/
def applyAlterFKs (content : List Char) (tabs : List (String × Table)) : List (String × Table) :=
  (findAlterFK content).foldl
    (fun ts m =>
      let tn := String.mk m.1
      let fk : ForeignKey :=
        { column := String.mk (stripSet dqSpace m.2.2.1)
          ref_table := String.mk m.2.2.2.1
          ref_column := String.mk (stripSet dqSpace m.2.2.2.2)
          constraint_name := some (String.mk m.2.1) }
      ts.map (fun kv =>
        if kv.1 == tn then
          (kv.1,
            { (addForeignKey kv.2 fk) with
              columns := markFirstFK fk.column (addForeignKey kv.2 fk).columns })
        else kv))
    tabs

/-- `PostgreSQLSchemaParser.parse`: strip comments, find CREATE TABLE
headers, process each (depth scan + terminator gate), then apply the
out-of-line primary-key and foreign-key passes. -/
def pgParse (dbName : String) (raw : List Char) : List (String × Table) :=
  let content := cleanSQLComments raw
  let tabs := (findHeaders content).foldl (pgProcessHeader dbName content) []
  applyAlterFKs content (applyAlterPKs content tabs)

/-- String-level wrapper for `pgParse`. -/
def pgParseS (dbName content : String) : List (String × Table) :=
  pgParse dbName content.data

/-! ## Catalog builder
(`src/ingest/entities_catalog.py`)

The external store (LightRAG) is modelled as an explicit state: an
insertion-ordered association list of entities keyed by entity name and
one of relations keyed by the (source, target) pair.  Its two create
operations fail exactly when the key is already present, with an error
message containing `already exists` — the AlreadyExists semantics the
spec assigns to the store collaborator and the condition
`"already exists" in str(e)` that every call site of the builder
checks.  `datetime.now().isoformat()` is modelled by an arbitrary
timestamp string parameter of the build. -/

/-- A property value in an entity/relation property bag. -/
inductive PropVal where
  | str (v : String)
  | nat (v : Nat)
  | rat (v : Rat)
  | bool (v : Bool)
  | optStr (v : Option String)
deriving DecidableEq, Repr

/-- A property bag (`entity_data` / `relation_data` dict). -/
def PropBag : Type := List (String × PropVal)

instance : DecidableEq PropBag := by
  unfold PropBag
  infer_instance

/-- The state of the external graph/vector store. -/
structure Store where
  entities : List (String × PropBag)
  relations : List ((String × String) × PropBag)
deriving DecidableEq

/-- The store with nothing in it. -/
def emptyStore : Store := { entities := [], relations := [] }

/-- Append an entity (the success case of `acreate_entity`). -/
def addEntity (s : Store) (n : String) (d : PropBag) : Store :=
  { s with entities := s.entities ++ [(n, d)] }

/-- Append a relation (the success case of `acreate_relation`). -/
def addRel (s : Store) (k : String × String) (d : PropBag) : Store :=
  { s with relations := s.relations ++ [(k, d)] }

/-- `acreate_entity`: fails with an `already exists` error when the
entity name is present, otherwise appends the entity. -/
def acreateEntity (s : Store) (n : String) (d : PropBag) : Except String Store :=
  if (s.entities.map Prod.fst).contains n then
    .error ("Entity " ++ n ++ " already exists")
  else .ok (addEntity s n d)

/-- `acreate_relation`: fails with an `already exists` error when a
relation with the same source and target is present. -/
def acreateRelation (s : Store) (src tgt : String) (d : PropBag) : Except String Store :=
  if (s.relations.map Prod.fst).contains (src, tgt) then
    .error ("Relation " ++ src ++ " to " ++ tgt ++ " already exists")
  else .ok (addRel s (src, tgt) d)

/-- Python `"already exists" in str(e)`. -/
def pyInStr (needle hay : String) : Bool := containsSub needle.data hay.data

/-- The `try/except ValueError` pattern wrapped around every entity
create: an `already exists` failure is treated as success (state
unchanged), anything else is re-raised. -/
def createEntitySkipExisting (s : Store) (n : String) (d : PropBag) : Except String Store :=
  match acreateEntity s n d with
  | .ok s' => .ok s'
  | .error e => if pyInStr "already exists" e then .ok s else .error e

/-- The same pattern for relation creates. -/
def createRelationSkipExisting (s : Store) (src tgt : String) (d : PropBag) : Except String Store :=
  match acreateRelation s src tgt d with
  | .ok s' => .ok s'
  | .error e => if pyInStr "already exists" e then .ok s else .error e

/-- Per-database metadata record (one entry of `DATABASE_CONFIGS`). -/
structure DbConfig where
  name : String
  cluster : String
  description : String
  dbType : String
  sql_file : String
deriving DecidableEq, Repr

/-- The `mysql_db` entry of `DATABASE_CONFIGS`. -/
def mysqlDbConfig : DbConfig :=
  { name := "mysql_application_db", cluster := "production"
    description := "MySQL production database containing user management and business workflow tables"
    dbType := "MySQL", sql_file := "data/vd.sql" }

/-- The `postgres_db` entry of `DATABASE_CONFIGS`. -/
def postgresDbConfig : DbConfig :=
  { name := "postgres_legacy_db", cluster := "production"
    description := "PostgreSQL production database containing legacy system data and operational tables"
    dbType := "PostgreSQL", sql_file := "data/sqlfile.sql" }

/-- `DEFAULT_OWNER["name"]`. -/
def defaultOwnerName : String := "Database Team"

/-- `DEFAULT_OWNER["email"]`. -/
def defaultOwnerEmail : String := "db-team@company.com"

/-- `COMMON_TAGS` (name, description). -/
def commonTags : List (String × String) :=
  [("PII", "Personally Identifiable Information - sensitive data requiring protection"),
   ("Authentication", "Authentication and security related fields"),
   ("Timestamp", "Time-based tracking fields"),
   ("Foreign_Key", "Foreign key relationships"),
   ("Primary_Key", "Primary key identifier"),
   ("Required", "NOT NULL fields that must have values")]

/-- Python truthiness of an optional string (`None` and `''` are falsy). -/
def optTruthy : Option String → Bool
  | none => false
  | some s => !(s == "")

/-- Python `x or d` for an optional string default. -/
def pyOrStr (o : Option String) (d : String) : String :=
  match o with
  | none => d
  | some s => if s == "" then d else s

/-- Python `str(bool)`. -/
def pyBoolStr (b : Bool) : String := if b then "True" else "False"

/-- `str.strip()` at the `String` level. -/
def pyStripS (s : String) : String := String.mk (pyStrip s.data)

/-- `Database:<name>` composite key. -/
def dbEntityName (cfg : DbConfig) : String := "Database:" ++ cfg.name

/-- `Table:<db>.<table>` composite key. -/
def tableEntityName (cfg : DbConfig) (tn : String) : String :=
  "Table:" ++ cfg.name ++ "." ++ tn

/-- `Column:<db>.<table>.<column>` composite key. -/
def columnEntityName (cfg : DbConfig) (tn : String) (c : Column) : String :=
  "Column:" ++ cfg.name ++ "." ++ tn ++ "." ++ c.name

/-- `create_owner_entity` property bag. -/
def ownerEntityData : PropBag :=
  [("description", .str ("Owner: " ++ defaultOwnerName ++ " (" ++ defaultOwnerEmail ++ ")")),
   ("entity_type", .str "owner"),
   ("email", .str defaultOwnerEmail)]

/-- `create_owner_entity`. -/
def createOwnerEntity (s : Store) : Except String Store :=
  createEntitySkipExisting s defaultOwnerName ownerEntityData

/-- One tag entity property bag. -/
def tagEntityData (desc : String) : PropBag :=
  [("description", .str desc), ("entity_type", .str "tag")]

/-- `create_tags`: one entity per fixed tag, each guarded by the
skip-if-exists handler. -/
def createTagsFrom (s : Store) : List (String × String) → Except String Store
  | [] => .ok s
  | (nm, desc) :: rest =>
    match createEntitySkipExisting s nm (tagEntityData desc) with
    | .error e => .error e
    | .ok s' => createTagsFrom s' rest

/-- `create_tags` over `COMMON_TAGS`. -/
def createTags (s : Store) : Except String Store := createTagsFrom s commonTags

/-- Database entity property bag. -/
def databaseEntityData (now : String) (cfg : DbConfig) : PropBag :=
  [("description", .str ("Database: " ++ cfg.name ++ "\nType: " ++ cfg.dbType
      ++ "\nCluster: " ++ cfg.cluster ++ "\nDescription: " ++ cfg.description)),
   ("entity_type", .str "database"),
   ("db_type", .str cfg.dbType),
   ("cluster", .str cfg.cluster),
   ("created_at", .str now)]

/-- `create_database_entity` (the `DATABASE_CONFIGS[db_key]` lookup is
resolved to the config record). -/
def createDatabaseEntity (now : String) (cfg : DbConfig) (s : Store) : Except String Store :=
  createEntitySkipExisting s (dbEntityName cfg) (databaseEntityData now cfg)

/-- `_format_columns`: one rendered line per column. -/
def formatColumnLine (c : Column) : String :=
  let l := "- " ++ c.name ++ ": " ++ c.data_type
  let l := if !c.nullable then l ++ " NOT NULL" else l
  let l := if c.is_primary_key then l ++ " PRIMARY KEY" else l
  if optTruthy c.comment then l ++ " -- " ++ c.comment.getD "" else l

/-- `_format_columns`. -/
def formatColumns (t : Table) : String :=
  if t.columns.isEmpty then "No columns"
  else String.intercalate "\n" (t.columns.map formatColumnLine)

/-- `_format_foreign_keys`. -/
def formatForeignKeys (t : Table) : String :=
  if t.foreign_keys.isEmpty then "No foreign keys"
  else String.intercalate "\n"
    (t.foreign_keys.map (fun fk => "- " ++ fk.column ++ " → " ++ fk.ref_table ++ "." ++ fk.ref_column))

/-- The multi-section table description (the f-string of
`create_table_entities`, before the final `.strip()`). -/
def tableFullDescription (cfg : DbConfig) (tn : String) (t : Table) : String :=
  "\nTable: " ++ tn
  ++ "\nDatabase: " ++ cfg.name ++ " (" ++ cfg.dbType ++ ")"
  ++ "\nEngine: " ++ t.engine
  ++ "\nCharset: " ++ t.charset
  ++ "\nComment: " ++ pyOrStr t.comment "N/A"
  ++ "\n\nColumns:\n" ++ formatColumns t
  ++ "\n\nForeign Keys:\n" ++ formatForeignKeys t
  ++ "\n"

/-- Table entity property bag. -/
def tableEntityData (now : String) (cfg : DbConfig) (tn : String) (t : Table) : PropBag :=
  [("description", .str (pyStripS (tableFullDescription cfg tn t))),
   ("entity_type", .str "table"),
   ("database", .str cfg.name),
   ("engine", .str t.engine),
   ("row_count", .nat 0),
   ("last_updated", .str now)]

/-- HAS_TABLE relation property bag. -/
def hasTableRelData (cfg : DbConfig) (tn : String) : PropBag :=
  [("description", .str ("Database " ++ cfg.name ++ " contains table " ++ tn)),
   ("keywords", .str "has_table contains database_structure"),
   ("weight", .rat (3 / 2)),
   ("relation_type", .str "HAS_TABLE")]

/-- OWNED_BY relation property bag. -/
def ownedByRelData (tn : String) : PropBag :=
  [("description", .str ("Table " ++ tn ++ " is owned by " ++ defaultOwnerName)),
   ("keywords", .str "owned_by ownership responsibility"),
   ("weight", .rat 1),
   ("relation_type", .str "OWNED_BY")]

/-- The body of the `create_table_entities` loop for one table: table
entity, HAS_TABLE relation, OWNED_BY relation, each skip-if-exists. -/
def processTable (now : String) (cfg : DbConfig) (s : Store) (tn : String) (t : Table) :
    Except String Store :=
  match createEntitySkipExisting s (tableEntityName cfg tn) (tableEntityData now cfg tn t) with
  | .error e => .error e
  | .ok s1 =>
    match createRelationSkipExisting s1 (dbEntityName cfg) (tableEntityName cfg tn)
        (hasTableRelData cfg tn) with
    | .error e => .error e
    | .ok s2 =>
      createRelationSkipExisting s2 (tableEntityName cfg tn) defaultOwnerName
        (ownedByRelData tn)

/-- `create_table_entities`. -/
def createTableEntities (now : String) (cfg : DbConfig) :
    List (String × Table) → Store → Except String Store
  | [], s => .ok s
  | (tn, t) :: rest, s =>
    match processTable now cfg s tn t with
    | .error e => .error e
    | .ok s' => createTableEntities now cfg rest s'

/-- The column description f-string (before the final `.strip()`). -/
def columnDescription (cfg : DbConfig) (tn : String) (idx : Nat) (c : Column) : String :=
  "\nColumn: " ++ c.name
  ++ "\nTable: " ++ tn
  ++ "\nDatabase: " ++ cfg.name
  ++ "\nData Type: " ++ c.data_type
  ++ "\nNullable: " ++ pyBoolStr c.nullable
  ++ "\nPosition: " ++ toString idx
  ++ "\nPrimary Key: " ++ pyBoolStr c.is_primary_key
  ++ "\nForeign Key: " ++ pyBoolStr c.is_foreign_key
  ++ "\nDefault: " ++ pyOrStr c.default "None"
  ++ "\nComment: " ++ pyOrStr c.comment "N/A"
  ++ "\n"

/-- Column entity property bag. -/
def columnEntityData (cfg : DbConfig) (tn : String) (idx : Nat) (c : Column) : PropBag :=
  [("description", .str (pyStripS (columnDescription cfg tn idx c))),
   ("entity_type", .str "column"),
   ("table", .str tn),
   ("database", .str cfg.name),
   ("dtype", .str c.data_type),
   ("nullable", .bool c.nullable),
   ("ordinal", .nat idx),
   ("comment", .optStr c.comment)]

/-- HAS_COLUMN relation property bag. -/
def hasColumnRelData (tn : String) (idx : Nat) (c : Column) : PropBag :=
  [("description", .str ("Table " ++ tn ++ " has column " ++ c.name
      ++ " at position " ++ toString idx)),
   ("keywords", .str "has_column schema_structure column_definition"),
   ("weight", .rat 1),
   ("relation_type", .str "HAS_COLUMN"),
   ("ordinal", .nat idx)]

/-- The tag list derived by the name-based tagging heuristic
(`create_column_entities` lines 301–315). -/
def tagsToAdd (c : Column) : List String :=
  (if c.is_primary_key then ["Primary_Key"] else [])
  ++ (if c.is_foreign_key then ["Foreign_Key"] else [])
  ++ (if !c.nullable then ["Required"] else [])
  ++ (if containsSub "password".data (lowerL c.name.data)
        || containsSub "email".data (lowerL c.name.data) then ["PII"] else [])
  ++ (if containsSub "time".data (lowerL c.name.data)
        || containsSub "date".data (lowerL c.name.data) then ["Timestamp"] else [])
  ++ (if [("password" : String), "token", "secret"].contains (String.mk (lowerL c.name.data))
      then ["Authentication"] else [])

/-- TAGGED relation property bag. -/
def taggedRelData (colName tag : String) : PropBag :=
  [("description", .str ("Column " ++ colName ++ " is tagged as " ++ tag)),
   ("keywords", .str ("tagged classification " ++ String.mk (lowerL tag.data))),
   ("weight", .rat (4 / 5)),
   ("relation_type", .str "TAGGED")]

/-- The TAGGED relation loop: any `ValueError` is swallowed
(`except ValueError: pass`), so this part of the step is total. -/
def addTagRelations (colName : String) (tags : List String) (s : Store) : Store :=
  tags.foldl
    (fun st tag =>
      match acreateRelation st colName tag (taggedRelData colName tag) with
      | .ok st' => st'
      | .error _ => st)
    s

/-- The body of the `create_column_entities` inner loop for one column:
when the column entity already exists the loop `continue`s, skipping
the HAS_COLUMN relation, the TAGGED relations and the count increment. -/
def processColumn (cfg : DbConfig) (tn : String) (idx : Nat) (c : Column)
    (s : Store) (cnt : Nat) : Except String (Store × Nat) :=
  let colName := columnEntityName cfg tn c
  match acreateEntity s colName (columnEntityData cfg tn idx c) with
  | .error e =>
    if pyInStr "already exists" e then .ok (s, cnt) else .error e
  | .ok s1 =>
    match createRelationSkipExisting s1 (tableEntityName cfg tn) colName
        (hasColumnRelData tn idx c) with
    | .error e => .error e
    | .ok s2 => .ok (addTagRelations colName (tagsToAdd c) s2, cnt + 1)

/-- The `enumerate(table.columns, 1)` loop. -/
def processColumns (cfg : DbConfig) (tn : String) :
    Nat → List Column → Store → Nat → Except String (Store × Nat)
  | _, [], s, cnt => .ok (s, cnt)
  | idx, c :: rest, s, cnt =>
    match processColumn cfg tn idx c s cnt with
    | .error e => .error e
    | .ok (s', cnt') => processColumns cfg tn (idx + 1) rest s' cnt'

/-- `create_column_entities`: returns the new store and the count of
columns whose entity create succeeded in this run. -/
def createColumnEntities (cfg : DbConfig) :
    List (String × Table) → Store → Nat → Except String (Store × Nat)
  | [], s, cnt => .ok (s, cnt)
  | (tn, t) :: rest, s, cnt =>
    match processColumns cfg tn 1 t.columns s cnt with
    | .error e => .error e
    | .ok (s', cnt') => createColumnEntities cfg rest s' cnt'

/-- REFERENCES relation property bag. -/
def refRelData (tn : String) (fk : ForeignKey) : PropBag :=
  [("description", .str (pyStripS (
      "\nForeign Key Relationship: " ++ tn ++ " → " ++ fk.ref_table
      ++ "\n\nColumn Mapping:\n- " ++ tn ++ "." ++ fk.column
      ++ " references " ++ fk.ref_table ++ "." ++ fk.ref_column
      ++ "\n\nConstraint: " ++ pyOrStr fk.constraint_name "N/A"
      ++ "\nON DELETE: " ++ fk.on_delete
      ++ "\nON UPDATE: " ++ fk.on_update
      ++ "\n\nJoin Pattern:\nSELECT * FROM " ++ tn ++ " \nJOIN " ++ fk.ref_table
      ++ " ON " ++ tn ++ "." ++ fk.column ++ " = " ++ fk.ref_table ++ "." ++ fk.ref_column
      ++ "\n"))),
   ("keywords", .str ("foreign_key references " ++ fk.column ++ " " ++ fk.ref_column ++ " join")),
   ("weight", .rat 2),
   ("relation_type", .str "REFERENCES"),
   ("from_column", .str fk.column),
   ("to_column", .str fk.ref_column)]

/-- One foreign key of `create_foreign_key_relations`: a reference to a
table missing from the parsed set is skipped with a warning; an
`already exists` create is skipped without incrementing the count. -/
def processFK (cfg : DbConfig) (tableNames : List String) (tn : String) (fk : ForeignKey)
    (s : Store) (cnt : Nat) : Except String (Store × Nat) :=
  if !tableNames.contains fk.ref_table then .ok (s, cnt)
  else
    match acreateRelation s (tableEntityName cfg tn) (tableEntityName cfg fk.ref_table)
        (refRelData tn fk) with
    | .ok s' => .ok (s', cnt + 1)
    | .error e => if pyInStr "already exists" e then .ok (s, cnt) else .error e

/-- The foreign-key loop of one table. -/
def processFKs (cfg : DbConfig) (tableNames : List String) (tn : String) :
    List ForeignKey → Store → Nat → Except String (Store × Nat)
  | [], s, cnt => .ok (s, cnt)
  | fk :: rest, s, cnt =>
    match processFK cfg tableNames tn fk s cnt with
    | .error e => .error e
    | .ok (s', cnt') => processFKs cfg tableNames tn rest s' cnt'

/-- `create_foreign_key_relations`. -/
def createForeignKeyRelations (cfg : DbConfig) (tableNames : List String) :
    List (String × Table) → Store → Nat → Except String (Store × Nat)
  | [], s, cnt => .ok (s, cnt)
  | (tn, t) :: rest, s, cnt =>
    match processFKs cfg tableNames tn t.foreign_keys s cnt with
    | .error e => .error e
    | .ok (s', cnt') => createForeignKeyRelations cfg tableNames rest s' cnt'

/-- The per-database input of one `build_entity_catalog` run: the config
entry, whether its SQL file exists, and the (deterministic) parse
result of that file. -/
structure DbInput where
  db_key : String
  config : DbConfig
  sqlExists : Bool
  tables : List (String × Table)
deriving DecidableEq

/-- The aggregate statistics of `build_entity_catalog`. -/
structure Stats where
  databases : Nat
  tables : Nat
  columns : Nat
  foreign_keys : Nat
deriving DecidableEq, Repr

/-- The per-database loop of `build_entity_catalog`: skip when the SQL
file is missing or the dialect is unsupported, otherwise run
database → tables → columns → foreign keys in order and accumulate
statistics. -/
def buildCatalogDbs (now : String) :
    List DbInput → Store → Stats → Except String (Store × Stats)
  | [], s, st => .ok (s, st)
  | d :: rest, s, st =>
    if !d.sqlExists then buildCatalogDbs now rest s st
    else if d.config.dbType != "MySQL" && d.config.dbType != "PostgreSQL" then
      buildCatalogDbs now rest s st
    else
      match createDatabaseEntity now d.config s with
      | .error e => .error e
      | .ok s1 =>
        match createTableEntities now d.config d.tables s1 with
        | .error e => .error e
        | .ok s2 =>
          match createColumnEntities d.config d.tables s2 0 with
          | .error e => .error e
          | .ok (s3, colCount) =>
            match createForeignKeyRelations d.config (d.tables.map Prod.fst) d.tables s3 0 with
            | .error e => .error e
            | .ok (s4, fkCount) =>
              buildCatalogDbs now rest s4
                { databases := st.databases + 1
                  tables := st.tables + d.tables.length
                  columns := st.columns + colCount
                  foreign_keys := st.foreign_keys + fkCount }

/-- `build_entity_catalog`: owner and tags once, then the per-database
loop. -/
def buildEntityCatalog (now : String) (input : List DbInput) (s : Store) :
    Except String (Store × Stats) :=
  match createOwnerEntity s with
  | .error e => .error e
  | .ok s1 =>
    match createTags s1 with
    | .error e => .error e
    | .ok s2 =>
      buildCatalogDbs now input s2
        { databases := 0, tables := 0, columns := 0, foreign_keys := 0 }

/-! ## Hierarchical chunk formatter
(`format_chunks_hierarchical`, `src/utils/chunk_formatter.py`)

The description lookup is modelled as a pure function
`describe : String → String`; the repository's lookup
(`RAGService._get_neo4j_description`) catches every exception internally
and returns `''`, so a failed lookup reaches the formatter as an empty
string.  A search hit is modelled by its optional `entity_name` field
(`result.get('entity_name', 'N/A')`).  Deduplication state
(`seen_databases` / `seen_tables`) is created afresh inside each call,
so it is scoped to the single formatting call by construction. -/

/-- One output chunk. -/
structure Chunk where
  entity : String
  content : String
deriving DecidableEq, Repr

/-- The loop state of `format_chunks_hierarchical`. -/
structure FormatState where
  chunks : List (String × Chunk)
  chunk_idx : Nat
  seen_databases : List String
  seen_tables : List String
deriving DecidableEq

/-- Python `a or b` on strings (empty is falsy). -/
def pyOrS (a b : String) : String := if a == "" then b else a

/-- Python `s.split(':', 1)`. -/
def splitColon1 (s : String) : String × String :=
  (String.mk (s.data.takeWhile (· ≠ ':')),
   String.mk ((s.data.dropWhile (· ≠ ':')).drop 1))

/-- Emit one chunk under the next sequential `chunkN` label. -/
def addChunk (st : FormatState) (e c : String) : FormatState :=
  { st with
    chunks := st.chunks ++ [("chunk" ++ toString st.chunk_idx, { entity := e, content := c })]
    chunk_idx := st.chunk_idx + 1 }

/-- The body of the `for result in results` loop of
`format_chunks_hierarchical`. -/
def processResult (describe : String → String) (st : FormatState) (res : Option String) :
    FormatState :=
  let entity_name := res.getD "N/A"
  let content := describe entity_name
  let tyName :=
    if containsSub ":".data entity_name.data then splitColon1 entity_name
    else ("Unknown", entity_name)
  if tyName.1 == "Column" then
    let parts := splitOnCh '.' tyName.2.data
    if 3 ≤ parts.length then
      let db_name := String.mk (parts.getD 0 [])
      let table_name := String.mk (parts.getD 1 [])
      let db_key := "Database:" ++ db_name
      let st1 :=
        if st.seen_databases.contains db_key then st
        else
          let s' := addChunk st db_key (pyOrS (describe db_key) ("Database: " ++ db_name))
          { s' with seen_databases := s'.seen_databases ++ [db_key] }
      let table_key := "Table:" ++ db_name ++ "." ++ table_name
      let st2 :=
        if st1.seen_tables.contains table_key then st1
        else
          let s' := addChunk st1 table_key
            (pyOrS (describe table_key) ("Table: " ++ table_name ++ " in database " ++ db_name))
          { s' with seen_tables := s'.seen_tables ++ [table_key] }
      addChunk st2 entity_name (pyOrS content entity_name)
    else st
  else if tyName.1 == "Table" then
    let parts := splitOnCh '.' tyName.2.data
    if 2 ≤ parts.length then
      let db_name := String.mk (parts.getD 0 [])
      let db_key := "Database:" ++ db_name
      let st1 :=
        if st.seen_databases.contains db_key then st
        else
          let s' := addChunk st db_key (pyOrS (describe db_key) ("Database: " ++ db_name))
          { s' with seen_databases := s'.seen_databases ++ [db_key] }
      addChunk st1 entity_name (pyOrS content entity_name)
    else st
  else
    let content2 := if content == "" then pyOrS (describe entity_name) entity_name else content
    addChunk st entity_name content2

/-- The result dict of `format_chunks_hierarchical`. -/
structure FormatResult where
  total_chunks : Nat
  chunks : List (String × Chunk)
deriving DecidableEq

/-- `format_chunks_hierarchical`. -/
def formatChunksHierarchical (results : List (Option String)) (describe : String → String) :
    FormatResult :=
  let st := results.foldl (processResult describe)
    { chunks := [], chunk_idx := 1, seen_databases := [], seen_tables := [] }
  { total_chunks := st.chunks.length, chunks := st.chunks }

/-! ## Helper lemmas for the formatter claims -/

/-- The chunk list of `addChunk` is the old list with one appended entry. -/
theorem chunks_addChunk (st : FormatState) (e c : String) :
    (addChunk st e c).chunks
      = st.chunks ++ [("chunk" ++ toString st.chunk_idx, ⟨e, c⟩)] := rfl

/-- `pyOrS` returns a nonempty string when its fallback is nonempty. -/
theorem pyOrS_ne_empty (a b : String) (hb : b ≠ "") : pyOrS a b ≠ "" := by
  unfold pyOrS
  split
  · exact hb
  · next h => exact fun ha => h (by rw [ha]; rfl)

/-- A string with a nonempty prefix is nonempty. -/
theorem append_ne_empty_left (a b : String) (ha : a.length ≠ 0) : a ++ b ≠ "" := by
  intro h
  have := congrArg String.length h
  rw [String.length_append] at this
  simp at this
  omega

/-- Adding a chunk with nonempty content preserves the all-contents-nonempty
invariant. -/
theorem nonempty_contents_addChunk (st : FormatState) (e c : String)
    (hP : ∀ kv ∈ st.chunks, kv.2.content ≠ "") (hc : c ≠ "") :
    ∀ kv ∈ (addChunk st e c).chunks, kv.2.content ≠ "" := by
  intro kv hkv
  rw [chunks_addChunk] at hkv
  rcases List.mem_append.mp hkv with h1 | h2
  · exact hP kv h1
  · simp only [List.mem_singleton] at h2
    subst h2
    exact hc

/-- A string with a nonempty left part is nonempty. -/
theorem str_append_ne_empty (a b : String) (ha : a ≠ "") : a ++ b ≠ "" := by
  intro h
  apply ha
  have hl := congrArg String.length h
  rw [String.length_append] at hl
  have : a.length = 0 := by
    have : (("" : String)).length = 0 := rfl
    omega
  cases a with
  | mk data =>
    cases data with
    | nil => rfl
    | cons c cs => simp [String.length] at this

/-- The synthesized database placeholder is nonempty. -/
theorem dbPlaceholder_ne (x : String) : ("Database: " ++ x) ≠ "" :=
  str_append_ne_empty _ _ (by decide)

/-- The synthesized table placeholder is nonempty. -/
theorem tablePlaceholder_ne (x y : String) : ("Table: " ++ x ++ " in database " ++ y) ≠ "" :=
  str_append_ne_empty _ _ (str_append_ne_empty _ _ (str_append_ne_empty _ _ (by decide)))

/-- A string whose `== ""` test is false is nonempty. -/
theorem beq_empty_false_ne (a : String) (h : (a == "") = false) : a ≠ "" := by
  simpa using h

/-- Processing one hit other than `some ""` preserves the invariant that
every emitted chunk has nonempty content: every fallback used by the
formatter (synthesized `Database:`/`Table:` placeholders, or the entity
key itself) is nonempty. -/
theorem nonempty_contents_processResult (describe : String → String) (st : FormatState)
    (res : Option String) (hres : res ≠ some "")
    (hP : ∀ kv ∈ st.chunks, kv.2.content ≠ "") :
    ∀ kv ∈ (processResult describe st res).chunks, kv.2.content ≠ "" := by
  have hname : res.getD "N/A" ≠ "" := by
    cases res with
    | none => simp
    | some s =>
      simp only [Option.getD]
      intro hs
      exact hres (by rw [hs])
  simp only [processResult]
  repeat' split
  all_goals
    repeat'
      first
        | exact hP
        | apply nonempty_contents_addChunk
        | exact pyOrS_ne_empty _ _ hname
        | exact pyOrS_ne_empty _ _ (dbPlaceholder_ne _)
        | exact pyOrS_ne_empty _ _ (tablePlaceholder_ne _ _)
        | exact beq_empty_false_ne _ (by simp_all)

/-- C6: formatting the hit list `[Column:db.users.email, Table:db.orders]`
produces exactly the chunk sequence `Database:db`, `Table:db.users`,
`Column:db.users.email`, `Table:db.orders` under the sequential labels
`chunk1..chunk4`, with the `Database:db` chunk emitted exactly once even
though both hits derive from that database — for every description
lookup.  Deduplication state is scoped to the single formatting call by
construction: `formatChunksHierarchical` creates its `seen` sets afresh
inside the call and is a pure function of its arguments. -/
theorem c6_hierarchical_example (describe : String → String) :
    ((formatChunksHierarchical [some "Column:db.users.email", some "Table:db.orders"] describe).chunks.map
        (fun kv => kv.2.entity)
      = ["Database:db", "Table:db.users", "Column:db.users.email", "Table:db.orders"])
    ∧ ((formatChunksHierarchical [some "Column:db.users.email", some "Table:db.orders"] describe).chunks.map
        Prod.fst
      = ["chunk1", "chunk2", "chunk3", "chunk4"])
    ∧ ((formatChunksHierarchical [some "Column:db.users.email", some "Table:db.orders"] describe).chunks.countP
        (fun kv => kv.2.entity == "Database:db")) = 1 :=
  ⟨rfl, by
    have h : (formatChunksHierarchical [some "Column:db.users.email", some "Table:db.orders"] describe).chunks.map
        Prod.fst
        = ["chunk" ++ toString (1:Nat), "chunk" ++ toString (2:Nat),
           "chunk" ++ toString (3:Nat), "chunk" ++ toString (4:Nat)] := rfl
    rw [h]
    decide, by rfl⟩

/-- C8 counterexample: a hit exposing the empty entity key, with a lookup
that returns empty, produces a chunk whose `Content` is the empty
string — so the claim "no chunk is ever content-less" fails as stated. -/
theorem c8_counterexample :
    ((formatChunksHierarchical [some ""] (fun _ => "")).chunks.map (fun kv => kv.2.content))
      = [""] := rfl

/-- C8 (amended): the formatter never raises and always returns the full
chunk mapping (`total_chunks` is its length); and provided every hit's
entity key is nonempty — the repository's lookup converts its own
failures into empty returns, and empty lookups fall back to a
synthesized placeholder or the entity key — no emitted chunk is
content-less. -/
theorem c8_empty_lookup_fallback (describe : String → String) (results : List (Option String))
    (h : ∀ r ∈ results, r ≠ some "") :
    (formatChunksHierarchical results describe).total_chunks
        = (formatChunksHierarchical results describe).chunks.length
    ∧ ∀ kv ∈ (formatChunksHierarchical results describe).chunks, kv.2.content ≠ "" := by
  refine ⟨rfl, ?_⟩
  have main : ∀ (rs : List (Option String)) (st : FormatState),
      (∀ r ∈ rs, r ≠ some "") → (∀ kv ∈ st.chunks, kv.2.content ≠ "") →
      ∀ kv ∈ (rs.foldl (processResult describe) st).chunks, kv.2.content ≠ "" := by
    intro rs
    induction rs with
    | nil => intro st _ hP; simpa using hP
    | cons r rest ih =>
      intro st hrs hP
      simp only [List.foldl_cons]
      exact ih _ (fun x hx => hrs x (List.mem_cons_of_mem _ hx))
        (nonempty_contents_processResult describe st r (hrs r (List.mem_cons_self _ _)) hP)
  exact main results _ h (by simp)

/-- C8 witness: the amended theorem applied at a concrete hit list. -/
theorem c8_empty_lookup_fallback_witness :
    (formatChunksHierarchical [some "Column:db.users.email"] (fun _ => "")).total_chunks
        = (formatChunksHierarchical [some "Column:db.users.email"] (fun _ => "")).chunks.length
    ∧ ∀ kv ∈ (formatChunksHierarchical [some "Column:db.users.email"] (fun _ => "")).chunks,
        kv.2.content ≠ "" :=
  c8_empty_lookup_fallback (fun _ => "") [some "Column:db.users.email"] (by decide)

/-- Processing a hit whose key has entity type `Column` with fewer than
three dot-separated parts, or `Table` with fewer than two, leaves the
formatter state unchanged: no chunk is emitted and no ancestor chunk is
produced. -/
theorem processResult_short_key (describe : String → String) (st : FormatState) (e : String)
    (hcolon : containsSub ":".data e.data = true)
    (hshort : ((splitColon1 e).1 = "Column" ∧ (splitOnCh '.' (splitColon1 e).2.data).length < 3)
        ∨ ((splitColon1 e).1 = "Table" ∧ (splitOnCh '.' (splitColon1 e).2.data).length < 2)) :
    processResult describe st (some e) = st := by
  rcases hshort with ⟨hty, hlen⟩ | ⟨hty, hlen⟩
  · have h3 : ¬ 3 ≤ (splitOnCh '.' (splitColon1 e).2.data).length := by omega
    simp [processResult, hcolon, hty, h3]
  · have h2 : ¬ 2 ≤ (splitOnCh '.' (splitColon1 e).2.data).length := by omega
    simp [processResult, hcolon, hty, h2]

/-- C9: a hit whose key has entity type `Column` but fewer than three
dot-separated name parts, or `Table` but fewer than two, contributes
nothing to the output: the formatting of any hit list containing it
equals the formatting of the same list with that hit removed (the hit
and any ancestor chunks for it are silently dropped). -/
theorem c9_short_entity_keys_emit_nothing (describe : String → String)
    (pre post : List (Option String)) (e : String)
    (hcolon : containsSub ":".data e.data = true)
    (hshort : ((splitColon1 e).1 = "Column" ∧ (splitOnCh '.' (splitColon1 e).2.data).length < 3)
        ∨ ((splitColon1 e).1 = "Table" ∧ (splitOnCh '.' (splitColon1 e).2.data).length < 2)) :
    formatChunksHierarchical (pre ++ some e :: post) describe
      = formatChunksHierarchical (pre ++ post) describe := by
  unfold formatChunksHierarchical
  rw [List.foldl_append, List.foldl_cons,
    processResult_short_key describe _ e hcolon hshort, ← List.foldl_append]

/-- C9 witness: the theorem applied to the concrete hit `Column:db.users`
(two name parts) inside a concrete list. -/
theorem c9_short_entity_keys_witness :
    formatChunksHierarchical [some "Table:db.orders", some "Column:db.users"] (fun _ => "x")
      = formatChunksHierarchical [some "Table:db.orders"] (fun _ => "x") :=
  c9_short_entity_keys_emit_nothing (fun _ => "x") [some "Table:db.orders"] [] "Column:db.users"
    (by decide) (Or.inl ⟨by decide, by decide⟩)

/-- C7: a column named exactly `email` that is not nullable and is
neither a primary nor a foreign key receives exactly the tags
`Required` and `PII` from the name-based case-insensitive tagging
heuristic — no additional tags and no missing tags (the emitted list is
exactly `["Required", "PII"]`, and as a set it is exactly
`PII, Required`). -/
theorem c7_email_column_tags (c : Column)
    (hn : c.name = "email") (hnull : c.nullable = false)
    (hpk : c.is_primary_key = false) (hfk : c.is_foreign_key = false) :
    tagsToAdd c = ["Required", "PII"]
    ∧ ∀ t, t ∈ tagsToAdd c ↔ (t = "PII" ∨ t = "Required") := by
  have h : tagsToAdd c = ["Required", "PII"] := by
    simp only [tagsToAdd, hn, hnull, hpk, hfk]
    decide
  refine ⟨h, fun t => ?_⟩
  rw [h]
  simp only [List.mem_cons, List.not_mem_nil, or_false]
  tauto

/-- C7 witness: the theorem applied to a concrete `email` column. -/
theorem c7_email_column_tags_witness :
    tagsToAdd { name := "email", data_type := "VARCHAR(255)", nullable := false } = ["Required", "PII"]
    ∧ ∀ t, t ∈ tagsToAdd { name := "email", data_type := "VARCHAR(255)", nullable := false }
        ↔ (t = "PII" ∨ t = "Required") :=
  c7_email_column_tags _ rfl rfl rfl rfl

/-! ## Claims about the MySQL body parser -/

/-- C2 counterexample: the literal one-line body
`id INT PRIMARY KEY AUTO_INCREMENT, email VARCHAR(255) NOT NULL` does
not yield two columns: `_parse_mysql_table_definition` splits the body
on newlines only, so this is a single logical line and parses to the
single column `id` whose attribute tail swallows the rest (including
`NOT NULL`, making `id` non-nullable). -/
theorem c2_counterexample :
    ((mysqlBodyTable "id INT PRIMARY KEY AUTO_INCREMENT, email VARCHAR(255) NOT NULL").columns
      = [{ name := "id", data_type := "INT", nullable := false, default := none, comment := none,
           is_primary_key := true, is_foreign_key := false, auto_increment := true }]) := by
  decide

/-- C2 (amended): with the two column definitions on separate lines —
`id INT PRIMARY KEY AUTO_INCREMENT,` and `email VARCHAR(255) NOT NULL`
— parsing yields exactly the two claimed columns in order (`id` of type
INT, primary and auto-increment; `email` of type VARCHAR(255), not
nullable) and the table-level `primary_keys` list equals `["id"]`. -/
theorem c2_two_line_body :
    ((mysqlBodyTable "id INT PRIMARY KEY AUTO_INCREMENT,\nemail VARCHAR(255) NOT NULL").columns
      = [{ name := "id", data_type := "INT", nullable := true, default := none, comment := none,
           is_primary_key := true, is_foreign_key := false, auto_increment := true },
         { name := "email", data_type := "VARCHAR(255)", nullable := false, default := none,
           comment := none, is_primary_key := false, is_foreign_key := false,
           auto_increment := false }])
    ∧ (mysqlBodyTable "id INT PRIMARY KEY AUTO_INCREMENT,\nemail VARCHAR(255) NOT NULL").primary_keys
      = ["id"] := by
  constructor <;> decide

/-- If the upper-cased attribute tail contains no occurrence of the
literal `DEFAULT`, the leftmost-match scan finds nothing. -/
theorem searchDefaultVal_none (a : List Char)
    (h : containsSub "DEFAULT".data a = false) : searchDefaultVal a = none := by
  induction a with
  | nil => rfl
  | cons c rest ih =>
    unfold containsSub at h
    rw [Bool.or_eq_false_iff] at h
    unfold searchDefaultVal
    have ht : tryDefaultAt (c :: rest) = none := by
      unfold tryDefaultAt
      rw [h.1]
      rfl
    rw [ht]
    exact ih h.2

/-- A column line whose only occurrence of the word DEFAULT sits inside
its COMMENT string: `note VARCHAR(50) COMMENT 'USE DEFAULT X'` (the
quotes are single quotes). -/
def c4Line : String :=
  "note VARCHAR(50) COMMENT " ++ String.mk [sqCh] ++ "USE DEFAULT X" ++ String.mk [sqCh]

/-- C4 counterexample: parsing the line whose only DEFAULT occurs inside
its COMMENT string (`note VARCHAR(50) COMMENT 'USE DEFAULT X'`) sets
`default` to `X`, extracted from inside the comment text — the claim
that such a line acquires no default value is false. -/
theorem c4_counterexample :
    (mysqlBodyTable c4Line).columns.map (fun c => (c.default, c.comment))
      = [(some "X", some "USE DEFAULT X")] := by
  decide

/-- C4 (amended): the DEFAULT and COMMENT extractions are two independent
`re.search` scans over the same entire upper-cased attribute tail.  The
comment match never swallows a default: a tail with no DEFAULT token
yields no default value at all; but conversely the DEFAULT scan does
look inside COMMENT text, so a line whose only DEFAULT occurs inside
its COMMENT acquires that value as its default (while the comment is
still extracted intact). -/
theorem c4_default_comment_scans (w d attrs : List Char)
    (h : containsSub "DEFAULT".data (upperL attrs) = false) :
    (columnFromMatch w d attrs).default = none
    ∧ (mysqlBodyTable c4Line).columns.map (fun c => (c.default, c.comment))
      = [(some "X", some "USE DEFAULT X")] := by
  refine ⟨?_, by decide⟩
  unfold columnFromMatch
  simp only [searchDefaultVal_none _ h, Option.map_none']

/-- C4 witness: the amended theorem applied at a concrete DEFAULT-free
attribute tail. -/
theorem c4_default_comment_scans_witness :
    (columnFromMatch "id".data "INT".data "NOT NULL".data).default = none
    ∧ (mysqlBodyTable c4Line).columns.map (fun c => (c.default, c.comment))
      = [(some "X", some "USE DEFAULT X")] :=
  c4_default_comment_scans "id".data "INT".data "NOT NULL".data (by decide)

/-- A newline-free body line that `_parse_mysql_table_definition` routes
into the column-definition branch: after `strip().rstrip(',')` it is
nonempty, is not a `--` comment, starts with none of the
PRIMARY KEY / CONSTRAINT / FOREIGN KEY / KEY / INDEX / UNIQUE keywords
(on the upper-cased line), and matches the column-definition pattern. -/
def isColumnDefLine (l : List Char) : Bool :=
  !(cleanLine l).isEmpty
  && !startsWithL "--".data (cleanLine l)
  && !startsWithL "PRIMARY KEY".data (upperL (cleanLine l))
  && !startsWithL "CONSTRAINT".data (upperL (cleanLine l))
  && !startsWithL "FOREIGN KEY".data (upperL (cleanLine l))
  && !startsWithL "KEY".data (upperL (cleanLine l))
  && !startsWithL "INDEX".data (upperL (cleanLine l))
  && !startsWithL "UNIQUE".data (upperL (cleanLine l))
  && (matchColumnDef (cleanLine l)).isSome
  && l.all (fun c => !(c == '\n'))

/-- A newline-free trailing `PRIMARY KEY(...)` clause line: after
cleaning it is nonempty, not a comment, starts with `PRIMARY KEY`
(upper-cased) and contains a parenthesised key list. -/
def isPKClauseLine (l : List Char) : Bool :=
  !(cleanLine l).isEmpty
  && !startsWithL "--".data (cleanLine l)
  && startsWithL "PRIMARY KEY".data (upperL (cleanLine l))
  && (searchPKGroup (cleanLine l)).isSome
  && l.all (fun c => !(c == '\n'))

/-- The column a column-definition line parses to. -/
def columnOfLine (l : List Char) : Column :=
  match matchColumnDef (cleanLine l) with
  | some (w, d, a) => columnFromMatch w d a
  | none => { name := "", data_type := "" }

/-- The key names of a `PRIMARY KEY(...)` clause line (split on commas,
backticks and spaces stripped). -/
def pkColsOfLine (l : List Char) : List String :=
  match searchPKGroup (cleanLine l) with
  | some g => (splitOnCh ',' g).map (fun x => String.mk (stripSet btickSpace x))
  | none => []

/-- The marking applied to one column by the PRIMARY KEY clause branch. -/
def markPKCol (pk : List String) (c : Column) : Column :=
  if pk.contains c.name then { c with is_primary_key := true } else c

/-- A column-definition line appends exactly its parsed column. -/
theorem processMySQLLine_columnDef (t : Table) (l : List Char)
    (h : isColumnDefLine l = true) :
    processMySQLLine t l = addColumn t (columnOfLine l) := by
  unfold isColumnDefLine at h
  simp only [Bool.and_eq_true, Bool.not_eq_true', and_assoc] at h
  obtain ⟨h1, h2, h3, h4, h5, h6, h7, h8, h9, _⟩ := h
  obtain ⟨x, hx⟩ := Option.isSome_iff_exists.mp h9
  obtain ⟨w, d, a⟩ := x
  unfold processMySQLLine
  simp only [h1, h2, h3, h4, h5, h6, h7, h8, Bool.false_eq_true, if_false, Bool.or_self,
    Bool.or_false, hx]
  unfold columnOfLine
  rw [hx]

/-- A `PRIMARY KEY(...)` clause line extends the table's primary keys and
marks the matching columns, changing nothing else. -/
theorem processMySQLLine_pkClause (t : Table) (l : List Char)
    (h : isPKClauseLine l = true) :
    processMySQLLine t l
      = { t with
          primary_keys := t.primary_keys ++ pkColsOfLine l,
          columns := t.columns.map (markPKCol (pkColsOfLine l)) } := by
  unfold isPKClauseLine at h
  simp only [Bool.and_eq_true, Bool.not_eq_true', and_assoc] at h
  obtain ⟨h1, h2, h3, h4, _⟩ := h
  obtain ⟨g, hg⟩ := Option.isSome_iff_exists.mp h4
  unfold processMySQLLine
  simp only [h1, h2, h3, Bool.false_eq_true, if_false, if_true, hg]
  unfold pkColsOfLine
  rw [hg]
  rfl

/-- Folding column-definition lines appends their parsed columns in
source order. -/
theorem foldl_columnDef_columns (colLines : List (List Char)) :
    ∀ t0 : Table, (∀ l ∈ colLines, isColumnDefLine l = true) →
      (colLines.foldl processMySQLLine t0).columns
        = t0.columns ++ colLines.map columnOfLine := by
  induction colLines with
  | nil => intro t0 _; simp
  | cons l rest ih =>
    intro t0 h
    simp only [List.foldl_cons, List.map_cons]
    rw [processMySQLLine_columnDef t0 l (h l (List.mem_cons_self _ _)),
      ih _ (fun x hx => h x (List.mem_cons_of_mem _ hx))]
    simp [addColumn]

/-- Unfolding equation of `splitOnCh` on a cons cell. -/
theorem splitOnCh_cons (sep c : Char) (rest : List Char) :
    splitOnCh sep (c :: rest)
      = match splitOnCh sep rest with
        | [] => [[]]
        | h :: t => if c == sep then [] :: h :: t else (c :: h) :: t := rfl

/-- Splitting a separator-free list is the identity. -/
theorem splitOnCh_no_sep (sep : Char) (l : List Char) (h : ∀ c ∈ l, ¬ c = sep) :
    splitOnCh sep l = [l] := by
  induction l with
  | nil => rfl
  | cons c rest ih =>
    rw [splitOnCh_cons, ih (fun x hx => h x (List.mem_cons_of_mem _ hx))]
    have hc : (c == sep) = false := by
      simpa using h c (List.mem_cons_self _ _)
    simp [hc]

/-- The split result is never empty. -/
theorem splitOnCh_ne_nil (sep : Char) (l : List Char) : splitOnCh sep l ≠ [] := by
  cases l with
  | nil => simp [splitOnCh]
  | cons c rest =>
    rw [splitOnCh_cons]
    rcases hs : splitOnCh sep rest with _ | ⟨x, xs⟩
    · simp
    · show ¬(if (c == sep) = true then [] :: x :: xs else (c :: x) :: xs) = []
      split <;> simp

/-- Splitting a list that starts with a separator-free prefix followed by
the separator peels off that prefix. -/
theorem splitOnCh_append_sep (sep : Char) (x rest : List Char) (hx : ∀ c ∈ x, ¬ c = sep) :
    splitOnCh sep (x ++ sep :: rest) = x :: splitOnCh sep rest := by
  induction x with
  | nil =>
    simp only [List.nil_append]
    rw [splitOnCh_cons]
    rcases hs : splitOnCh sep rest with _ | ⟨y, ys⟩
    · exact absurd hs (splitOnCh_ne_nil sep rest)
    · simp
  | cons c x' ih =>
    simp only [List.cons_append]
    rw [splitOnCh_cons, ih (fun a ha => hx a (List.mem_cons_of_mem _ ha))]
    have hc : (c == sep) = false := by
      simpa using hx c (List.mem_cons_self _ _)
    simp [hc]

/-- Splitting the newline-joined concatenation of newline-free lines
recovers the lines. -/
theorem splitNL_intercalateNL (ls : List (List Char)) (hne : ls ≠ [])
    (h : ∀ l ∈ ls, ∀ c ∈ l, ¬ c = '\n') :
    splitOnCh '\n' (intercalateNL ls) = ls := by
  induction ls with
  | nil => exact absurd rfl hne
  | cons x xs ih =>
    cases xs with
    | nil =>
      show splitOnCh '\n' x = [x]
      exact splitOnCh_no_sep _ _ (h x (List.mem_cons_self _ _))
    | cons y ys =>
      show splitOnCh '\n' (x ++ '\n' :: intercalateNL (y :: ys)) = x :: y :: ys
      rw [splitOnCh_append_sep _ _ _ (h x (List.mem_cons_self _ _)),
        ih (by simp) (fun l hl => h l (List.mem_cons_of_mem _ hl))]

/-- Boolean no-newline test gives the propositional form. -/
theorem all_not_nl (l : List Char) (h : l.all (fun c => !(c == '\n')) = true) :
    ∀ c ∈ l, ¬ c = '\n' := by
  intro c hc
  have := List.all_eq_true.mp h c hc
  simpa using this

/-- C3 (amended): for every MySQL table body made of N newline-separated
column-definition lines followed by a trailing `PRIMARY KEY(...)`
clause, parsing yields exactly N columns in source order — the i-th
column being the parse of the i-th line — and a column ends with
`is_primary_key = true` exactly when it is named in the PRIMARY KEY
clause or its own definition line carries an inline `PRIMARY KEY`
marker (`markPKCol` applied to `columnOfLine`).  The original claim's
"exactly the columns named in the clause are marked" fails for inline
markers, which the clause branch never clears. -/
theorem c3_body_columns_and_marking (nm db : String) (colLines : List (List Char))
    (pk : List Char)
    (hcols : ∀ l ∈ colLines, isColumnDefLine l = true)
    (hpk : isPKClauseLine pk = true) :
    (parseMySQLTableDefinition (freshTable nm db) (intercalateNL (colLines ++ [pk]))).columns.length
        = colLines.length
    ∧ (parseMySQLTableDefinition (freshTable nm db) (intercalateNL (colLines ++ [pk]))).columns
        = colLines.map (fun l => markPKCol (pkColsOfLine pk) (columnOfLine l)) := by
  have hnl : ∀ l ∈ colLines ++ [pk], ∀ c ∈ l, ¬ c = '\n' := by
    intro l hl
    rcases List.mem_append.mp hl with hmem | hmem
    · have := hcols l hmem
      unfold isColumnDefLine at this
      simp only [Bool.and_eq_true, and_assoc] at this
      exact all_not_nl l this.2.2.2.2.2.2.2.2.2
    · have hle : l = pk := by simpa using hmem
      subst hle
      unfold isPKClauseLine at hpk
      simp only [Bool.and_eq_true, and_assoc] at hpk
      exact all_not_nl l hpk.2.2.2.2
  have hmain :
      (parseMySQLTableDefinition (freshTable nm db) (intercalateNL (colLines ++ [pk]))).columns
        = colLines.map (fun l => markPKCol (pkColsOfLine pk) (columnOfLine l)) := by
    unfold parseMySQLTableDefinition
    rw [splitNL_intercalateNL (colLines ++ [pk]) (by simp) hnl, List.foldl_append]
    simp only [List.foldl_cons, List.foldl_nil]
    rw [processMySQLLine_pkClause _ pk hpk]
    show (colLines.foldl processMySQLLine (freshTable nm db)).columns.map
        (markPKCol (pkColsOfLine pk)) = _
    rw [foldl_columnDef_columns colLines _ hcols]
    show (([] : List Column) ++ colLines.map columnOfLine).map (markPKCol (pkColsOfLine pk)) = _
    rw [List.nil_append, List.map_map]
    rfl
  exact ⟨by rw [hmain, List.length_map], hmain⟩

/-- C3 witness: the amended theorem applied to a concrete two-column body
with composite trailing key `PRIMARY KEY (id, org)`. -/
theorem c3_body_columns_and_marking_witness :
    (parseMySQLTableDefinition (freshTable "t" "db")
        (intercalateNL (["id INT NOT NULL".data, "org VARCHAR(10)".data]
          ++ ["PRIMARY KEY (id, org)".data]))).columns.length = 2
    ∧ (parseMySQLTableDefinition (freshTable "t" "db")
        (intercalateNL (["id INT NOT NULL".data, "org VARCHAR(10)".data]
          ++ ["PRIMARY KEY (id, org)".data]))).columns
        = ["id INT NOT NULL".data, "org VARCHAR(10)".data].map
            (fun l => markPKCol (pkColsOfLine "PRIMARY KEY (id, org)".data) (columnOfLine l)) :=
  c3_body_columns_and_marking "t" "db" ["id INT NOT NULL".data, "org VARCHAR(10)".data]
    "PRIMARY KEY (id, org)".data (by decide) (by decide)

/-- C3 counterexample: the body
`id INT PRIMARY KEY` / `name VARCHAR(50)` / `PRIMARY KEY (name)` has two
column-definition lines and a trailing PRIMARY KEY clause naming only
`name`, yet `id` also ends with `is_primary_key = true` (from its inline
marker) — so "exactly the columns named in the PRIMARY KEY clause end
with is_primary_key = true" is false as stated. -/
theorem c3_counterexample :
    ((mysqlBodyTable "id INT PRIMARY KEY\nname VARCHAR(50)\nPRIMARY KEY (name)").columns.map
        (fun c => (c.name, c.is_primary_key)))
      = [("id", true), ("name", true)] := by
  decide

/-! ## Claim C5: the PostgreSQL CREATE TABLE gate -/

/-- Running parenthesis balance (opens minus closes) of a character list. -/
def parenBal : List Char → Int
  | [] => 0
  | c :: rest => (if c == '(' then 1 else if c == ')' then -1 else 0) + parenBal rest

/-- The acceptance criterion of one CREATE TABLE header match, stated
from the spec: the table named by the header is produced exactly when
the depth scan finds the matching close and a `;` terminator follows it
(after optional whitespace). -/
def pgAcceptOf (h : List Char × List Char) : Option String :=
  match scanDepth h.2 1 with
  | none => none
  | some n =>
    if startsWithL ";".data ((h.2.drop n).dropWhile isSpaceCh) then some (String.mk h.1)
    else none

/-- The names of the accepted headers, in header order. -/
def pgAcceptedNames (content : List Char) : List String :=
  (findHeaders content).filterMap pgAcceptOf

/-- First-seen deduplication of a name list (Python dict key semantics). -/
def firstSeenFold (names : List String) : List String :=
  names.foldl (fun ks n => if ks.contains n then ks else ks ++ [n]) []

/-- The key effect of one header on the table dictionary. -/
def pgKeyStep (ks : List String) (h : List Char × List Char) : List String :=
  match pgAcceptOf h with
  | some nm => if ks.contains nm then ks else ks ++ [nm]
  | none => ks

/-- Keys of a dict upsert: unchanged when the key is present, appended
otherwise. -/
theorem upsertTable_keys (tabs : List (String × Table)) (k : String) (v : Table) :
    (upsertTable tabs k v).map Prod.fst
      = if (tabs.map Prod.fst).contains k then tabs.map Prod.fst
        else tabs.map Prod.fst ++ [k] := by
  induction tabs with
  | nil => simp [upsertTable]
  | cons kv rest ih =>
    obtain ⟨k', v'⟩ := kv
    unfold upsertTable
    by_cases hk : (k' == k)
    · have : k' = k := by simpa using hk
      subst this
      simp [hk]
    · have hk2 : (k == k') = false := by
        rw [beq_eq_false_iff_ne]
        intro he
        exact hk (by simp [he])
      simp only [hk, Bool.false_eq_true, if_false, List.map_cons, ih]
      rw [List.contains_cons, hk2]
      simp only [Bool.false_or]
      by_cases hmem : (rest.map Prod.fst).contains k
      · rw [hmem]
        simp
      · simp only [Bool.not_eq_true] at hmem
        rw [hmem]
        simp

/-- Keys of processing one header. -/
theorem pgProcessHeader_keys (dbName : String) (content : List Char)
    (tabs : List (String × Table)) (h : List Char × List Char) :
    (pgProcessHeader dbName content tabs h).map Prod.fst
      = pgKeyStep (tabs.map Prod.fst) h := by
  unfold pgProcessHeader pgKeyStep pgAcceptOf
  cases scanDepth h.2 1 with
  | none => rfl
  | some n =>
    by_cases hterm : startsWithL ";".data ((h.2.drop n).dropWhile isSpaceCh)
    · simp only [hterm, if_true]
      rw [upsertTable_keys]
    · simp [hterm]

/-- Keys of the header fold. -/
theorem pgHeaders_fold_keys (dbName : String) (content : List Char)
    (hs : List (List Char × List Char)) :
    ∀ tabs : List (String × Table),
      ((hs.foldl (pgProcessHeader dbName content) tabs).map Prod.fst)
        = hs.foldl pgKeyStep (tabs.map Prod.fst) := by
  induction hs with
  | nil => intro tabs; rfl
  | cons h rest ih =>
    intro tabs
    simp only [List.foldl_cons]
    rw [ih, pgProcessHeader_keys]

/-- A per-pair key-preserving map preserves the key list. -/
theorem map_fst_update (ts : List (String × Table)) (f : String × Table → String × Table)
    (hf : ∀ kv, (f kv).1 = kv.1) :
    (ts.map f).map Prod.fst = ts.map Prod.fst := by
  induction ts with
  | nil => rfl
  | cons kv rest ih => simp [hf kv, ih]

/-- The ALTER TABLE primary-key pass touches only values, never keys. -/
theorem applyAlterPKs_keys (content : List Char) (tabs : List (String × Table)) :
    (applyAlterPKs content tabs).map Prod.fst = tabs.map Prod.fst := by
  unfold applyAlterPKs
  generalize findAlterPK content = ms
  induction ms generalizing tabs with
  | nil => rfl
  | cons m rest ih =>
    simp only [List.foldl_cons]
    rw [ih]
    apply map_fst_update
    intro kv
    by_cases h : (kv.1 == String.mk m.1) <;> simp [h]

/-- The ALTER TABLE foreign-key pass touches only values, never keys. -/
theorem applyAlterFKs_keys (content : List Char) (tabs : List (String × Table)) :
    (applyAlterFKs content tabs).map Prod.fst = tabs.map Prod.fst := by
  unfold applyAlterFKs
  generalize findAlterFK content = ms
  induction ms generalizing tabs with
  | nil => rfl
  | cons m rest ih =>
    simp only [List.foldl_cons]
    rw [ih]
    apply map_fst_update
    intro kv
    by_cases h : (kv.1 == String.mk m.1) <;> simp [h]

/-- Folding over a `filterMap` skips the `none` elements. -/
theorem foldl_filterMap_eq {α β γ : Type} (f : α → Option β) (g : γ → β → γ)
    (l : List α) :
    ∀ init, (l.filterMap f).foldl g init
      = l.foldl (fun acc a => match f a with | some b => g acc b | none => acc) init := by
  induction l with
  | nil => intro init; rfl
  | cons a rest ih =>
    intro init
    rw [List.filterMap_cons]
    rcases hfa : f a with _ | b <;> simp only [List.foldl_cons, hfa] <;> rw [ih]

/-- Balance of `take` over a cons cell. -/
theorem parenBal_take_succ (c : Char) (rest : List Char) (m : Nat) :
    parenBal ((c :: rest).take (m + 1))
      = (if c == '(' then 1 else if c == ')' then -1 else 0) + parenBal (rest.take m) := rfl

/-- The depth scan finds exactly the first position where the running
balance reaches `-depth`: the matched close of the opening parenthesis
the scan started inside. -/
theorem scanDepth_first_close (cs : List Char) :
    ∀ d n, 1 ≤ d → scanDepth cs d = some n →
      1 ≤ n ∧ n ≤ cs.length ∧ parenBal (cs.take n) = -(d : Int)
      ∧ ∀ m < n, -(d : Int) < parenBal (cs.take m) := by
  induction cs with
  | nil =>
    intro d n _ h
    exact absurd h (by simp [scanDepth])
  | cons c rest ih =>
    intro d n hd h
    unfold scanDepth at h
    by_cases h0 : (if c == '(' then d + 1 else if c == ')' then d - 1 else d) = 0
    · -- the scan stops here: n = 1, c must be ')' and d = 1
      rw [if_pos (by simpa using h0)] at h
      have hn : n = 1 := by simpa using h.symm
      subst hn
      have hcd : (c == '(') = false ∧ (c == ')') = true ∧ d = 1 := by
        by_cases hc1 : (c == '(')
        · rw [if_pos hc1] at h0; omega
        · rw [if_neg hc1] at h0
          by_cases hc2 : (c == ')')
          · rw [if_pos hc2] at h0
            exact ⟨by simpa using hc1, hc2, by omega⟩
          · rw [if_neg hc2] at h0; omega
      refine ⟨le_refl 1, by simp, ?_, ?_⟩
      · rw [parenBal_take_succ, hcd.1, hcd.2.1, hcd.2.2]
        simp [parenBal]
      · intro m hm
        have : m = 0 := by omega
        subst this
        simp [parenBal, hcd.2.2]
    · rw [if_neg (by simpa using h0)] at h
      obtain ⟨n', hn', hnn⟩ : ∃ n', scanDepth rest
          (if c == '(' then d + 1 else if c == ')' then d - 1 else d) = some n'
          ∧ n = n' + 1 := by
        cases hs : scanDepth rest (if c == '(' then d + 1 else if c == ')' then d - 1 else d) with
        | none => rw [hs] at h; exact absurd h (by simp)
        | some k =>
          rw [hs] at h
          exact ⟨k, rfl, by simpa using h.symm⟩
      have hd' : 1 ≤ (if c == '(' then d + 1 else if c == ')' then d - 1 else d) := by omega
      obtain ⟨h1, hlen, hbal, hall⟩ := ih _ n' hd' hn'
      subst hnn
      have hdelta : ((if c == '(' then d + 1 else if c == ')' then d - 1 else d : Nat) : Int)
          = (d : Int) + (if c == '(' then 1 else if c == ')' then -1 else 0) := by
        by_cases hc1 : (c == '(')
        · simp [hc1]
        · by_cases hc2 : (c == ')')
          · rw [if_neg hc1, if_pos hc2] at h0 ⊢
            rw [if_neg hc1, if_pos hc2]
            omega
          · simp [hc1, hc2]
      refine ⟨by omega, by simp; omega, ?_, ?_⟩
      · rw [parenBal_take_succ, hbal, hdelta]
        ring
      · intro m hm
        cases m with
        | zero =>
          simp only [List.take_zero, parenBal]
          omega
        | succ m' =>
          rw [parenBal_take_succ]
          have := hall m' (by omega)
          have hdint : -(d : Int)
              = (if c == '(' then 1 else if c == ')' then -1 else 0)
                - ((if c == '(' then d + 1 else if c == ')' then d - 1 else d : Nat) : Int) := by
            rw [hdelta]; ring
          rw [hdint]
          omega

/-- C5: for every PostgreSQL source, (i) the parsed table names are
exactly the first-seen deduplication of the accepted CREATE TABLE
headers, where a header is accepted exactly when the depth scan finds
its matching close and a `;` terminator follows that close (after
optional whitespace) — a header with no terminator, or no matching
close, produces no table; and (ii) the depth scan pairs each header
with its true matching close: it stops at the first position where the
running parenthesis balance of the body reaches `-1`, nested
parentheses included. -/
theorem c5_create_table_gate (dbName : String) (raw : List Char) (cs : List Char) (n : Nat)
    (hscan : scanDepth cs 1 = some n) :
    ((pgParse dbName raw).map Prod.fst = firstSeenFold (pgAcceptedNames (cleanSQLComments raw)))
    ∧ (1 ≤ n ∧ n ≤ cs.length ∧ parenBal (cs.take n) = -1
        ∧ ∀ m < n, -1 < parenBal (cs.take m)) := by
  constructor
  · unfold pgParse
    rw [applyAlterFKs_keys, applyAlterPKs_keys, pgHeaders_fold_keys]
    unfold firstSeenFold pgAcceptedNames
    rw [foldl_filterMap_eq]
    simp only [List.map_nil]
    apply List.foldl_ext
    intro acc a _
    unfold pgKeyStep
    rcases pgAcceptOf a with _ | b <;> rfl
  · have := scanDepth_first_close cs 1 n (le_refl 1) hscan
    simpa using this

/-- C5 witness: the theorem applied to a concrete two-table source (the
second table lacks a terminator and is dropped) and a concrete depth
scan. -/
theorem c5_create_table_gate_witness :
    ((pgParse "db" "CREATE TABLE users (id int);\nCREATE TABLE lost (x int(2)) end".data).map
        Prod.fst
      = firstSeenFold (pgAcceptedNames (cleanSQLComments
          "CREATE TABLE users (id int);\nCREATE TABLE lost (x int(2)) end".data)))
    ∧ (1 ≤ 2 ∧ 2 ≤ "a)b".data.length ∧ parenBal ("a)b".data.take 2) = -1
        ∧ ∀ m < 2, -1 < parenBal ("a)b".data.take m)) :=
  c5_create_table_gate "db" "CREATE TABLE users (id int);\nCREATE TABLE lost (x int(2)) end".data
    "a)b".data 2 (by decide)

/-! ## Claims C1 and C10: idempotence and column counting of the builder -/

/-- The entity names present in the store. -/
def entityKeys (s : Store) : List String := s.entities.map Prod.fst

/-- The relation (source, target) keys present in the store. -/
def relKeys (s : Store) : List (String × String) := s.relations.map Prod.fst

/-- Whether an entity name is present. -/
def hasEntity (s : Store) (n : String) : Bool := (entityKeys s).contains n

/-- Whether a relation key is present. -/
def hasRel (s : Store) (k : String × String) : Bool := (relKeys s).contains k

/-- Store extension: everything present stays present. -/
def StoreExt (s s' : Store) : Prop :=
  (∀ n, hasEntity s n = true → hasEntity s' n = true)
  ∧ (∀ k, hasRel s k = true → hasRel s' k = true)

/-- Extension is reflexive. -/
theorem ext_refl (s : Store) : StoreExt s s := ⟨fun _ h => h, fun _ h => h⟩

/-- Extension is transitive. -/
theorem ext_trans {s1 s2 s3 : Store} (h1 : StoreExt s1 s2) (h2 : StoreExt s2 s3) : StoreExt s1 s3 :=
  ⟨fun n h => h2.1 n (h1.1 n h), fun k h => h2.2 k (h1.2 k h)⟩

/-- Appending an entity extends the store. -/
theorem ext_addEntity (s : Store) (n : String) (d : PropBag) : StoreExt s (addEntity s n d) := by
  constructor
  · intro x h
    simp only [hasEntity, entityKeys, addEntity, List.map_append] at h ⊢
    simp at h ⊢
    exact Or.inl h
  · intro k h
    exact h

/-- Appending a relation extends the store. -/
theorem ext_addRel (s : Store) (k : String × String) (d : PropBag) : StoreExt s (addRel s k d) := by
  constructor
  · intro x h
    exact h
  · intro x h
    simp only [hasRel, relKeys, addRel, List.map_append] at h ⊢
    simp at h ⊢
    exact Or.inl h

/-- The appended entity is present. -/
theorem hasEntity_addEntity_self (s : Store) (n : String) (d : PropBag) :
    hasEntity (addEntity s n d) n = true := by
  simp [hasEntity, entityKeys, addEntity]

/-- The appended relation key is present. -/
theorem hasRel_addRel_self (s : Store) (k : String × String) (d : PropBag) :
    hasRel (addRel s k d) k = true := by
  simp [hasRel, relKeys, addRel]

/-- Adding a relation does not change the entities. -/
theorem entities_addRel (s : Store) (k : String × String) (d : PropBag) :
    (addRel s k d).entities = s.entities := rfl

/-- A list starts with itself followed by anything. -/
theorem startsWithL_append_self (p t : List Char) : startsWithL p (p ++ t) = true := by
  induction p with
  | nil => rfl
  | cons c cs ih => simp [startsWithL, ih]

/-- Substring occurrence is stable under prepending. -/
theorem containsSub_append_right (p a b : List Char) (h : containsSub p b = true) :
    containsSub p (a ++ b) = true := by
  induction a with
  | nil => simpa using h
  | cons c cs ih => simp [containsSub, ih]

/-- A list contains any of its suffixes of the form `p ++ t` read from the
start — in particular itself. -/
theorem containsSub_of_self_append (p t : List Char) : containsSub p (p ++ t) = true := by
  cases p with
  | nil => cases t <;> simp [containsSub, startsWithL]
  | cons c cs =>
    show (startsWithL (c :: cs) ((c :: cs) ++ t) || _) = true
    rw [startsWithL_append_self]
    rfl

/-- The entity already-exists message is caught by the substring check. -/
theorem pyInStr_already_entity (n : String) :
    pyInStr "already exists" ("Entity " ++ n ++ " already exists") = true := by
  unfold pyInStr
  rw [String.data_append]
  apply containsSub_append_right
  decide

/-- The relation already-exists message is caught by the substring check. -/
theorem pyInStr_already_relation (src tgt : String) :
    pyInStr "already exists" ("Relation " ++ src ++ " to " ++ tgt ++ " already exists") = true := by
  unfold pyInStr
  rw [String.data_append]
  apply containsSub_append_right
  decide

/-- Normal form of the guarded entity create: the `already exists` error
is always caught, so the result is success, either leaving the store
unchanged or appending the entity. -/
theorem createEntitySkipExisting_eq (s : Store) (n : String) (d : PropBag) :
    createEntitySkipExisting s n d
      = .ok (if hasEntity s n then s else addEntity s n d) := by
  unfold createEntitySkipExisting acreateEntity
  by_cases h : hasEntity s n
  · rw [show (s.entities.map Prod.fst).contains n = true from h]
    simp only [if_true, h]
    rw [pyInStr_already_entity]
    rfl
  · simp only [Bool.not_eq_true] at h
    rw [show (s.entities.map Prod.fst).contains n = false from h]
    simp [h, addEntity]

/-- Normal form of the guarded relation create. -/
theorem createRelationSkipExisting_eq (s : Store) (src tgt : String) (d : PropBag) :
    createRelationSkipExisting s src tgt d
      = .ok (if hasRel s (src, tgt) then s else addRel s (src, tgt) d) := by
  unfold createRelationSkipExisting acreateRelation
  by_cases h : hasRel s (src, tgt)
  · rw [show (s.relations.map Prod.fst).contains (src, tgt) = true from h]
    simp only [if_true, h]
    rw [pyInStr_already_relation]
    rfl
  · simp only [Bool.not_eq_true] at h
    rw [show (s.relations.map Prod.fst).contains (src, tgt) = false from h]
    simp [h, addRel]

/-- The TAGGED loop never touches entities. -/
theorem entities_addTagRelations (n : String) (tags : List String) :
    ∀ s : Store, (addTagRelations n tags s).entities = s.entities := by
  induction tags with
  | nil => intro s; rfl
  | cons t rest ih =>
    intro s
    unfold addTagRelations at ih ⊢
    simp only [List.foldl_cons]
    rw [ih]
    unfold acreateRelation
    by_cases h : (s.relations.map Prod.fst).contains (n, t)
    · rw [h]
      simp
    · simp only [Bool.not_eq_true] at h
      rw [h]
      simp [addRel]

/-- The TAGGED loop only adds relations. -/
theorem ext_addTagRelations (n : String) (tags : List String) :
    ∀ s : Store, StoreExt s (addTagRelations n tags s) := by
  induction tags with
  | nil => intro s; exact ext_refl s
  | cons t rest ih =>
    intro s
    unfold addTagRelations at ih ⊢
    simp only [List.foldl_cons]
    refine ext_trans ?_ (ih _)
    unfold acreateRelation
    by_cases h : (s.relations.map Prod.fst).contains (n, t)
    · rw [h]
      simp only [if_true]
      exact ext_refl s
    · simp only [Bool.not_eq_true] at h
      rw [h]
      simp only [Bool.false_eq_true, if_false]
      exact ext_addRel s (n, t) _

/-- Entity presence is untouched by relation appends. -/
theorem hasEntity_addRel (s : Store) (k : String × String) (d : PropBag) (x : String) :
    hasEntity (addRel s k d) x = hasEntity s x := rfl

/-- Entity presence is untouched by the TAGGED loop. -/
theorem hasEntity_addTagRelations (n : String) (tags : List String) (s : Store) (x : String) :
    hasEntity (addTagRelations n tags s) x = hasEntity s x := by
  unfold hasEntity entityKeys
  rw [entities_addTagRelations]

/-- Specification of the per-column step: it always succeeds, only grows
the store, grows the count and the entity list in lockstep, and leaves
the column entity present. -/
theorem processColumn_spec (cfg : DbConfig) (tn : String) (idx : Nat) (c : Column)
    (s : Store) (k : Nat) :
    ∃ s' k', processColumn cfg tn idx c s k = .ok (s', k')
      ∧ StoreExt s s'
      ∧ k' + s.entities.length = k + s'.entities.length
      ∧ hasEntity s' (columnEntityName cfg tn c) = true := by
  simp only [processColumn, acreateEntity]
  by_cases h : hasEntity s (columnEntityName cfg tn c)
  · rw [show (s.entities.map Prod.fst).contains (columnEntityName cfg tn c) = true from h]
    simp only [if_true]
    rw [pyInStr_already_entity]
    exact ⟨s, k, rfl, ext_refl s, rfl, h⟩
  · have h' : hasEntity s (columnEntityName cfg tn c) = false := by
      simpa using h
    rw [show (s.entities.map Prod.fst).contains (columnEntityName cfg tn c) = false from h']
    simp only [Bool.false_eq_true, if_false]
    rw [createRelationSkipExisting_eq]
    set s1 := addEntity s (columnEntityName cfg tn c) (columnEntityData cfg tn idx c) with hs1
    by_cases hr : hasRel s1 (tableEntityName cfg tn, columnEntityName cfg tn c)
    · rw [if_pos hr]
      refine ⟨_, _, rfl, ?_, ?_, ?_⟩
      · exact ext_trans (ext_addEntity _ _ _) (ext_addTagRelations _ _ _)
      · rw [entities_addTagRelations]
        show k + 1 + s.entities.length = k + (s.entities ++ [_]).length
        simp
        omega
      · rw [hasEntity_addTagRelations]
        exact hasEntity_addEntity_self _ _ _
    · rw [if_neg hr]
      refine ⟨_, _, rfl, ?_, ?_, ?_⟩
      · exact ext_trans (ext_addEntity _ _ _)
          (ext_trans (ext_addRel _ _ _) (ext_addTagRelations _ _ _))
      · rw [entities_addTagRelations, entities_addRel]
        show k + 1 + s.entities.length = k + (s.entities ++ [_]).length
        simp
        omega
      · rw [hasEntity_addTagRelations, hasEntity_addRel]
        exact hasEntity_addEntity_self _ _ _

/-- The guarded entity create always succeeds, extends the store, and
leaves the entity present. -/
theorem createEntitySkipExisting_spec (s : Store) (n : String) (d : PropBag) :
    ∃ s', createEntitySkipExisting s n d = .ok s'
      ∧ StoreExt s s' ∧ hasEntity s' n = true := by
  rw [createEntitySkipExisting_eq]
  by_cases h : hasEntity s n
  · rw [if_pos h]
    exact ⟨s, rfl, ext_refl s, h⟩
  · rw [if_neg h]
    exact ⟨_, rfl, ext_addEntity _ _ _, hasEntity_addEntity_self _ _ _⟩

/-- The guarded relation create always succeeds, extends the store,
leaves the relation present, and never touches entities. -/
theorem createRelationSkipExisting_spec (s : Store) (src tgt : String) (d : PropBag) :
    ∃ s', createRelationSkipExisting s src tgt d = .ok s'
      ∧ StoreExt s s' ∧ hasRel s' (src, tgt) = true ∧ s'.entities = s.entities := by
  rw [createRelationSkipExisting_eq]
  by_cases h : hasRel s (src, tgt)
  · rw [if_pos h]
    exact ⟨s, rfl, ext_refl s, h, rfl⟩
  · rw [if_neg h]
    exact ⟨_, rfl, ext_addRel _ _ _, hasRel_addRel_self _ _ _, rfl⟩

/-- `create_owner_entity` always succeeds and provides the owner. -/
theorem createOwnerEntity_spec (s : Store) :
    ∃ s', createOwnerEntity s = .ok s'
      ∧ StoreExt s s' ∧ hasEntity s' defaultOwnerName = true :=
  createEntitySkipExisting_spec s defaultOwnerName ownerEntityData

/-- `create_tags` always succeeds and provides every listed tag. -/
theorem createTagsFrom_spec (tags : List (String × String)) :
    ∀ s : Store, ∃ s', createTagsFrom s tags = .ok s'
      ∧ StoreExt s s' ∧ ∀ tg ∈ tags, hasEntity s' tg.1 = true := by
  induction tags with
  | nil =>
    intro s
    exact ⟨s, rfl, ext_refl s, by simp⟩
  | cons tg rest ih =>
    intro s
    obtain ⟨s1, he1, hx1, hh1⟩ := createEntitySkipExisting_spec s tg.1 (tagEntityData tg.2)
    obtain ⟨s2, he2, hx2, hh2⟩ := ih s1
    refine ⟨s2, ?_, ext_trans hx1 hx2, ?_⟩
    · simp only [createTagsFrom, he1, he2]
    · intro x hx
      rcases List.mem_cons.mp hx with h | h
      · subst h
        exact hx2.1 _ hh1
      · exact hh2 x h

/-- `create_database_entity` always succeeds and provides the database
entity. -/
theorem createDatabaseEntity_spec (now : String) (cfg : DbConfig) (s : Store) :
    ∃ s', createDatabaseEntity now cfg s = .ok s'
      ∧ StoreExt s s' ∧ hasEntity s' (dbEntityName cfg) = true :=
  createEntitySkipExisting_spec s (dbEntityName cfg) (databaseEntityData now cfg)

/-- One table step always succeeds and provides its entity and its two
relations. -/
theorem processTable_spec (now : String) (cfg : DbConfig) (s : Store) (tn : String) (t : Table) :
    ∃ s', processTable now cfg s tn t = .ok s'
      ∧ StoreExt s s'
      ∧ hasEntity s' (tableEntityName cfg tn) = true
      ∧ hasRel s' (dbEntityName cfg, tableEntityName cfg tn) = true
      ∧ hasRel s' (tableEntityName cfg tn, defaultOwnerName) = true := by
  obtain ⟨s1, he1, hx1, hh1⟩ :=
    createEntitySkipExisting_spec s (tableEntityName cfg tn) (tableEntityData now cfg tn t)
  obtain ⟨s2, he2, hx2, hh2, _⟩ :=
    createRelationSkipExisting_spec s1 (dbEntityName cfg) (tableEntityName cfg tn)
      (hasTableRelData cfg tn)
  obtain ⟨s3, he3, hx3, hh3, _⟩ :=
    createRelationSkipExisting_spec s2 (tableEntityName cfg tn) defaultOwnerName
      (ownedByRelData tn)
  refine ⟨s3, ?_, ext_trans hx1 (ext_trans hx2 hx3),
    hx3.1 _ (hx2.1 _ hh1), hx3.2 _ hh2, hh3⟩
  simp only [processTable, he1, he2, he3]

/-- `create_table_entities` always succeeds and provides every table's
entity and relations. -/
theorem createTableEntities_spec (now : String) (cfg : DbConfig)
    (tables : List (String × Table)) :
    ∀ s : Store, ∃ s', createTableEntities now cfg tables s = .ok s'
      ∧ StoreExt s s'
      ∧ ∀ p ∈ tables,
          hasEntity s' (tableEntityName cfg p.1) = true
          ∧ hasRel s' (dbEntityName cfg, tableEntityName cfg p.1) = true
          ∧ hasRel s' (tableEntityName cfg p.1, defaultOwnerName) = true := by
  induction tables with
  | nil =>
    intro s
    exact ⟨s, rfl, ext_refl s, by simp⟩
  | cons p rest ih =>
    intro s
    obtain ⟨s1, he1, hx1, hh1, hr1, hr2⟩ := processTable_spec now cfg s p.1 p.2
    obtain ⟨s2, he2, hx2, hh2⟩ := ih s1
    refine ⟨s2, ?_, ext_trans hx1 hx2, ?_⟩
    · simp only [createTableEntities, he1, he2]
    · intro x hx
      rcases List.mem_cons.mp hx with h | h
      · subst h
        exact ⟨hx2.1 _ hh1, hx2.2 _ hr1, hx2.2 _ hr2⟩
      · exact hh2 x h

/-- The per-table column loop always succeeds, counts in lockstep with
the entity list, and provides every column entity. -/
theorem processColumns_spec (cfg : DbConfig) (tn : String) (cols : List Column) :
    ∀ (idx : Nat) (s : Store) (k : Nat), ∃ s' k',
      processColumns cfg tn idx cols s k = .ok (s', k')
      ∧ StoreExt s s'
      ∧ k' + s.entities.length = k + s'.entities.length
      ∧ ∀ c ∈ cols, hasEntity s' (columnEntityName cfg tn c) = true := by
  induction cols with
  | nil =>
    intro idx s k
    exact ⟨s, k, rfl, ext_refl s, rfl, by simp⟩
  | cons c rest ih =>
    intro idx s k
    obtain ⟨s1, k1, he1, hx1, hl1, hh1⟩ := processColumn_spec cfg tn idx c s k
    obtain ⟨s2, k2, he2, hx2, hl2, hh2⟩ := ih (idx + 1) s1 k1
    refine ⟨s2, k2, ?_, ext_trans hx1 hx2, by omega, ?_⟩
    · simp only [processColumns, he1, he2]
    · intro x hx
      rcases List.mem_cons.mp hx with h | h
      · subst h
        exact hx2.1 _ hh1
      · exact hh2 x h

/-- `create_column_entities` always succeeds, its count matches the
growth of the entity list exactly, and it provides every column
entity. -/
theorem createColumnEntities_spec (cfg : DbConfig) (tables : List (String × Table)) :
    ∀ (s : Store) (k : Nat), ∃ s' k',
      createColumnEntities cfg tables s k = .ok (s', k')
      ∧ StoreExt s s'
      ∧ k' + s.entities.length = k + s'.entities.length
      ∧ ∀ p ∈ tables, ∀ c ∈ p.2.columns, hasEntity s' (columnEntityName cfg p.1 c) = true := by
  induction tables with
  | nil =>
    intro s k
    exact ⟨s, k, rfl, ext_refl s, rfl, by simp⟩
  | cons p rest ih =>
    intro s k
    obtain ⟨s1, k1, he1, hx1, hl1, hh1⟩ := processColumns_spec cfg p.1 p.2.columns 1 s k
    obtain ⟨s2, k2, he2, hx2, hl2, hh2⟩ := ih s1 k1
    refine ⟨s2, k2, ?_, ext_trans hx1 hx2, by omega, ?_⟩
    · simp only [createColumnEntities, he1, he2]
    · intro x hx
      rcases List.mem_cons.mp hx with h | h
      · subst h
        intro cc hcc
        exact hx2.1 _ (hh1 cc hcc)
      · exact hh2 x h

/-- One foreign-key step always succeeds and provides the REFERENCES
relation whenever the referenced table is in the parsed set. -/
theorem processFK_spec (cfg : DbConfig) (tns : List String) (tn : String) (fk : ForeignKey)
    (s : Store) (k : Nat) :
    ∃ s' k', processFK cfg tns tn fk s k = .ok (s', k')
      ∧ StoreExt s s'
      ∧ (tns.contains fk.ref_table = true →
          hasRel s' (tableEntityName cfg tn, tableEntityName cfg fk.ref_table) = true) := by
  unfold processFK acreateRelation
  by_cases hc : tns.contains fk.ref_table
  · rw [hc]
    simp only [Bool.not_true, Bool.false_eq_true, if_false]
    by_cases hr : hasRel s (tableEntityName cfg tn, tableEntityName cfg fk.ref_table)
    · rw [show (s.relations.map Prod.fst).contains
          (tableEntityName cfg tn, tableEntityName cfg fk.ref_table) = true from hr]
      simp only [if_true]
      rw [pyInStr_already_relation]
      exact ⟨s, k, rfl, ext_refl s, fun _ => hr⟩
    · have hr' : hasRel s (tableEntityName cfg tn, tableEntityName cfg fk.ref_table) = false := by
        simpa using hr
      rw [show (s.relations.map Prod.fst).contains
          (tableEntityName cfg tn, tableEntityName cfg fk.ref_table) = false from hr']
      simp only [Bool.false_eq_true, if_false]
      exact ⟨_, _, rfl, ext_addRel _ _ _, fun _ => hasRel_addRel_self _ _ _⟩
  · have hc' : tns.contains fk.ref_table = false := by simpa using hc
    rw [hc']
    simp only [Bool.not_false, if_true]
    exact ⟨s, k, rfl, ext_refl s, fun h => absurd h (by simp [hc'])⟩

/-- The per-table foreign-key loop always succeeds and provides every
resolvable REFERENCES relation. -/
theorem processFKs_spec (cfg : DbConfig) (tns : List String) (tn : String)
    (fks : List ForeignKey) :
    ∀ (s : Store) (k : Nat), ∃ s' k',
      processFKs cfg tns tn fks s k = .ok (s', k')
      ∧ StoreExt s s'
      ∧ ∀ fk ∈ fks, tns.contains fk.ref_table = true →
          hasRel s' (tableEntityName cfg tn, tableEntityName cfg fk.ref_table) = true := by
  induction fks with
  | nil =>
    intro s k
    exact ⟨s, k, rfl, ext_refl s, by simp⟩
  | cons fk rest ih =>
    intro s k
    obtain ⟨s1, k1, he1, hx1, hh1⟩ := processFK_spec cfg tns tn fk s k
    obtain ⟨s2, k2, he2, hx2, hh2⟩ := ih s1 k1
    refine ⟨s2, k2, ?_, ext_trans hx1 hx2, ?_⟩
    · simp only [processFKs, he1, he2]
    · intro x hx hmem
      rcases List.mem_cons.mp hx with h | h
      · subst h
        exact hx2.2 _ (hh1 hmem)
      · exact hh2 x h hmem

/-- `create_foreign_key_relations` always succeeds and provides every
resolvable REFERENCES relation of every table. -/
theorem createForeignKeyRelations_spec (cfg : DbConfig) (tns : List String)
    (tables : List (String × Table)) :
    ∀ (s : Store) (k : Nat), ∃ s' k',
      createForeignKeyRelations cfg tns tables s k = .ok (s', k')
      ∧ StoreExt s s'
      ∧ ∀ p ∈ tables, ∀ fk ∈ p.2.foreign_keys, tns.contains fk.ref_table = true →
          hasRel s' (tableEntityName cfg p.1, tableEntityName cfg fk.ref_table) = true := by
  induction tables with
  | nil =>
    intro s k
    exact ⟨s, k, rfl, ext_refl s, by simp⟩
  | cons p rest ih =>
    intro s k
    obtain ⟨s1, k1, he1, hx1, hh1⟩ := processFKs_spec cfg tns p.1 p.2.foreign_keys s k
    obtain ⟨s2, k2, he2, hx2, hh2⟩ := ih s1 k1
    refine ⟨s2, k2, ?_, ext_trans hx1 hx2, ?_⟩
    · simp only [createForeignKeyRelations, he1, he2]
    · intro x hx
      rcases List.mem_cons.mp hx with h | h
      · subst h
        intro fk hfk hmem
        exact hx2.2 _ (hh1 fk hfk hmem)
      · exact hh2 x h

/-- Whether the per-database loop actually processes this input (SQL file
present and a supported dialect). -/
def dbProcessed (d : DbInput) : Bool :=
  d.sqlExists && !(d.config.dbType != "MySQL" && d.config.dbType != "PostgreSQL")

/-- Everything the per-database steps create for one database input:
its database entity, each table's entity and two relations, each
column's entity, and each resolvable REFERENCES relation. -/
def DbProvided (s : Store) (d : DbInput) : Prop :=
  hasEntity s (dbEntityName d.config) = true
  ∧ (∀ p ∈ d.tables,
      hasEntity s (tableEntityName d.config p.1) = true
      ∧ hasRel s (dbEntityName d.config, tableEntityName d.config p.1) = true
      ∧ hasRel s (tableEntityName d.config p.1, defaultOwnerName) = true)
  ∧ (∀ p ∈ d.tables, ∀ c ∈ p.2.columns,
      hasEntity s (columnEntityName d.config p.1 c) = true)
  ∧ (∀ p ∈ d.tables, ∀ fk ∈ p.2.foreign_keys,
      (d.tables.map Prod.fst).contains fk.ref_table = true →
      hasRel s (tableEntityName d.config p.1, tableEntityName d.config fk.ref_table) = true)

/-- `DbProvided` is stable under store extension. -/
theorem dbProvided_mono {s s' : Store} (hx : StoreExt s s') {d : DbInput}
    (h : DbProvided s d) : DbProvided s' d := by
  obtain ⟨h1, h2, h3, h4⟩ := h
  refine ⟨hx.1 _ h1, ?_, ?_, ?_⟩
  · intro p hp
    obtain ⟨a, b, c⟩ := h2 p hp
    exact ⟨hx.1 _ a, hx.2 _ b, hx.2 _ c⟩
  · intro p hp c hc
    exact hx.1 _ (h3 p hp c hc)
  · intro p hp fk hfk hm
    exact hx.2 _ (h4 p hp fk hfk hm)

/-- The per-database loop always succeeds and provides every processed
database's catalog material. -/
theorem buildCatalogDbs_spec (now : String) (input : List DbInput) :
    ∀ (s : Store) (st : Stats), ∃ s' st',
      buildCatalogDbs now input s st = .ok (s', st')
      ∧ StoreExt s s'
      ∧ ∀ d ∈ input, dbProcessed d = true → DbProvided s' d := by
  induction input with
  | nil =>
    intro s st
    exact ⟨s, st, rfl, ext_refl s, by simp⟩
  | cons d rest ih =>
    intro s st
    by_cases hex : d.sqlExists
    · by_cases hty : (d.config.dbType != "MySQL" && d.config.dbType != "PostgreSQL")
      · -- unsupported dialect: skipped
        obtain ⟨s2, st2, he2, hx2, hh2⟩ := ih s st
        refine ⟨s2, st2, ?_, hx2, ?_⟩
        · simp only [buildCatalogDbs, hex, hty]
          simpa using he2
        · intro x hx hproc
          rcases List.mem_cons.mp hx with h | h
          · subst h
            exact absurd hproc (by simp [dbProcessed, hty])
          · exact hh2 x h hproc
      · -- processed
        obtain ⟨s1, he1, hx1, hh1⟩ := createDatabaseEntity_spec now d.config s
        obtain ⟨s2, he2, hx2, hh2⟩ := createTableEntities_spec now d.config d.tables s1
        obtain ⟨s3, k3, he3, hx3, _, hh3⟩ := createColumnEntities_spec d.config d.tables s2 0
        obtain ⟨s4, k4, he4, hx4, hh4⟩ :=
          createForeignKeyRelations_spec d.config (d.tables.map Prod.fst) d.tables s3 0
        obtain ⟨s5, st5, he5, hx5, hh5⟩ := ih s4 _
        refine ⟨s5, st5, ?_, ext_trans hx1 (ext_trans hx2 (ext_trans hx3 (ext_trans hx4 hx5))), ?_⟩
        · simp only [buildCatalogDbs, hex, hty, Bool.not_true, Bool.not_false,
            Bool.false_eq_true, if_false, if_true, he1, he2, he3, he4]
          exact he5
        · intro x hx _
          rcases List.mem_cons.mp hx with h | h
          · subst h
            refine dbProvided_mono hx5 ?_
            refine ⟨(ext_trans hx2 (ext_trans hx3 hx4)).1 _ hh1, ?_, ?_, ?_⟩
            · intro p hp
              obtain ⟨a, b, c⟩ := hh2 p hp
              exact ⟨(ext_trans hx3 hx4).1 _ a, (ext_trans hx3 hx4).2 _ b,
                (ext_trans hx3 hx4).2 _ c⟩
            · intro p hp c hc
              exact hx4.1 _ (hh3 p hp c hc)
            · intro p hp fk hfk hm
              exact hh4 p hp fk hfk hm
          · exact hh5 x h (by assumption)
    · -- SQL file missing: skipped
      obtain ⟨s2, st2, he2, hx2, hh2⟩ := ih s st
      refine ⟨s2, st2, ?_, hx2, ?_⟩
      · have hex' : d.sqlExists = false := by simpa using hex
        simp only [buildCatalogDbs, hex', Bool.not_false, if_true]
        exact he2
      · intro x hx hproc
        rcases List.mem_cons.mp hx with h | h
        · subst h
          exact absurd hproc (by simp [dbProcessed, by simpa using hex])
        · exact hh2 x h hproc

/-- `build_entity_catalog` always succeeds (no create collision is ever
surfaced) and the resulting store provides the owner, every tag, and
every processed database's catalog material. -/
theorem buildEntityCatalog_spec (now : String) (input : List DbInput) (s : Store) :
    ∃ s' st, buildEntityCatalog now input s = .ok (s', st)
      ∧ StoreExt s s'
      ∧ hasEntity s' defaultOwnerName = true
      ∧ (∀ tg ∈ commonTags, hasEntity s' tg.1 = true)
      ∧ ∀ d ∈ input, dbProcessed d = true → DbProvided s' d := by
  obtain ⟨s1, he1, hx1, hh1⟩ := createOwnerEntity_spec s
  obtain ⟨s2, he2, hx2, hh2⟩ := createTagsFrom_spec commonTags s1
  obtain ⟨s3, st3, he3, hx3, hh3⟩ := buildCatalogDbs_spec now input s2
    { databases := 0, tables := 0, columns := 0, foreign_keys := 0 }
  refine ⟨s3, st3, ?_, ext_trans hx1 (ext_trans hx2 hx3),
    (ext_trans hx2 hx3).1 _ hh1, fun tg htg => hx3.1 _ (hh2 tg htg), hh3⟩
  simp only [buildEntityCatalog, createTags, he1, he2]
  exact he3

/-- A guarded entity create against a store that already has the entity
changes nothing. -/
theorem createEntitySkipExisting_absorb (s : Store) (n : String) (d : PropBag)
    (h : hasEntity s n = true) : createEntitySkipExisting s n d = .ok s := by
  rw [createEntitySkipExisting_eq, if_pos h]

/-- A guarded relation create against a store that already has the
relation changes nothing. -/
theorem createRelationSkipExisting_absorb (s : Store) (src tgt : String) (d : PropBag)
    (h : hasRel s (src, tgt) = true) : createRelationSkipExisting s src tgt d = .ok s := by
  rw [createRelationSkipExisting_eq, if_pos h]

/-- `create_tags` against a store that already has every tag changes
nothing. -/
theorem createTagsFrom_absorb (tags : List (String × String)) :
    ∀ s : Store, (∀ tg ∈ tags, hasEntity s tg.1 = true) →
      createTagsFrom s tags = .ok s := by
  induction tags with
  | nil => intro s _; rfl
  | cons tg rest ih =>
    intro s h
    simp only [createTagsFrom,
      createEntitySkipExisting_absorb s tg.1 _ (h tg (List.mem_cons_self _ _))]
    exact ih s (fun x hx => h x (List.mem_cons_of_mem _ hx))

/-- A table step against a store that already has the entity and both
relations changes nothing. -/
theorem processTable_absorb (now : String) (cfg : DbConfig) (s : Store) (tn : String) (t : Table)
    (h1 : hasEntity s (tableEntityName cfg tn) = true)
    (h2 : hasRel s (dbEntityName cfg, tableEntityName cfg tn) = true)
    (h3 : hasRel s (tableEntityName cfg tn, defaultOwnerName) = true) :
    processTable now cfg s tn t = .ok s := by
  simp only [processTable, createEntitySkipExisting_absorb s _ _ h1,
    createRelationSkipExisting_absorb s _ _ _ h2,
    createRelationSkipExisting_absorb s _ _ _ h3]

/-- `create_table_entities` against a fully provided store changes
nothing. -/
theorem createTableEntities_absorb (now : String) (cfg : DbConfig)
    (tables : List (String × Table)) :
    ∀ s : Store,
      (∀ p ∈ tables,
        hasEntity s (tableEntityName cfg p.1) = true
        ∧ hasRel s (dbEntityName cfg, tableEntityName cfg p.1) = true
        ∧ hasRel s (tableEntityName cfg p.1, defaultOwnerName) = true) →
      createTableEntities now cfg tables s = .ok s := by
  induction tables with
  | nil => intro s _; rfl
  | cons p rest ih =>
    intro s h
    obtain ⟨a, b, c⟩ := h p (List.mem_cons_self _ _)
    simp only [createTableEntities, processTable_absorb now cfg s p.1 p.2 a b c]
    exact ih s (fun x hx => h x (List.mem_cons_of_mem _ hx))

/-- A column step whose entity already exists `continue`s: the store and
the count are unchanged, and neither the HAS_COLUMN relation nor any
TAGGED relation is created. -/
theorem processColumn_absorb (cfg : DbConfig) (tn : String) (idx : Nat) (c : Column)
    (s : Store) (k : Nat) (h : hasEntity s (columnEntityName cfg tn c) = true) :
    processColumn cfg tn idx c s k = .ok (s, k) := by
  simp only [processColumn, acreateEntity]
  rw [show (s.entities.map Prod.fst).contains (columnEntityName cfg tn c) = true from h]
  simp only [if_true]
  rw [pyInStr_already_entity]
  rfl

/-- The column loop against a store that already has every column entity
changes nothing and counts nothing. -/
theorem processColumns_absorb (cfg : DbConfig) (tn : String) (cols : List Column) :
    ∀ (idx : Nat) (s : Store) (k : Nat),
      (∀ c ∈ cols, hasEntity s (columnEntityName cfg tn c) = true) →
      processColumns cfg tn idx cols s k = .ok (s, k) := by
  induction cols with
  | nil => intro idx s k _; rfl
  | cons c rest ih =>
    intro idx s k h
    simp only [processColumns,
      processColumn_absorb cfg tn idx c s k (h c (List.mem_cons_self _ _))]
    exact ih (idx + 1) s k (fun x hx => h x (List.mem_cons_of_mem _ hx))

/-- `create_column_entities` against a store that already has every
column entity changes nothing and returns a zero increment. -/
theorem createColumnEntities_absorb (cfg : DbConfig) (tables : List (String × Table)) :
    ∀ (s : Store) (k : Nat),
      (∀ p ∈ tables, ∀ c ∈ p.2.columns, hasEntity s (columnEntityName cfg p.1 c) = true) →
      createColumnEntities cfg tables s k = .ok (s, k) := by
  induction tables with
  | nil => intro s k _; rfl
  | cons p rest ih =>
    intro s k h
    simp only [createColumnEntities,
      processColumns_absorb cfg p.1 p.2.columns 1 s k (h p (List.mem_cons_self _ _))]
    exact ih s k (fun x hx => h x (List.mem_cons_of_mem _ hx))

/-- A foreign-key step whose relation already exists (or whose reference
is unresolvable) changes nothing and counts nothing. -/
theorem processFK_absorb (cfg : DbConfig) (tns : List String) (tn : String) (fk : ForeignKey)
    (s : Store) (k : Nat)
    (h : tns.contains fk.ref_table = true →
      hasRel s (tableEntityName cfg tn, tableEntityName cfg fk.ref_table) = true) :
    processFK cfg tns tn fk s k = .ok (s, k) := by
  unfold processFK acreateRelation
  by_cases hc : tns.contains fk.ref_table
  · rw [hc]
    simp only [Bool.not_true, Bool.false_eq_true, if_false]
    rw [show (s.relations.map Prod.fst).contains
        (tableEntityName cfg tn, tableEntityName cfg fk.ref_table) = true from h hc]
    simp only [if_true]
    rw [pyInStr_already_relation]
    rfl
  · have hc' : tns.contains fk.ref_table = false := by simpa using hc
    rw [hc']
    rfl

/-- The foreign-key loop against a fully provided store changes nothing. -/
theorem processFKs_absorb (cfg : DbConfig) (tns : List String) (tn : String)
    (fks : List ForeignKey) :
    ∀ (s : Store) (k : Nat),
      (∀ fk ∈ fks, tns.contains fk.ref_table = true →
        hasRel s (tableEntityName cfg tn, tableEntityName cfg fk.ref_table) = true) →
      processFKs cfg tns tn fks s k = .ok (s, k) := by
  induction fks with
  | nil => intro s k _; rfl
  | cons fk rest ih =>
    intro s k h
    simp only [processFKs,
      processFK_absorb cfg tns tn fk s k (h fk (List.mem_cons_self _ _))]
    exact ih s k (fun x hx => h x (List.mem_cons_of_mem _ hx))

/-- `create_foreign_key_relations` against a fully provided store changes
nothing. -/
theorem createForeignKeyRelations_absorb (cfg : DbConfig) (tns : List String)
    (tables : List (String × Table)) :
    ∀ (s : Store) (k : Nat),
      (∀ p ∈ tables, ∀ fk ∈ p.2.foreign_keys, tns.contains fk.ref_table = true →
        hasRel s (tableEntityName cfg p.1, tableEntityName cfg fk.ref_table) = true) →
      createForeignKeyRelations cfg tns tables s k = .ok (s, k) := by
  induction tables with
  | nil => intro s k _; rfl
  | cons p rest ih =>
    intro s k h
    simp only [createForeignKeyRelations,
      processFKs_absorb cfg tns p.1 p.2.foreign_keys s k (h p (List.mem_cons_self _ _))]
    exact ih s k (fun x hx => h x (List.mem_cons_of_mem _ hx))

/-- The per-database loop against a fully provided store re-runs every
create, resolves them all as AlreadyExists, and changes nothing. -/
theorem buildCatalogDbs_absorb (now : String) (input : List DbInput) :
    ∀ (s : Store) (st : Stats),
      (∀ d ∈ input, dbProcessed d = true → DbProvided s d) →
      ∃ st', buildCatalogDbs now input s st = .ok (s, st') := by
  induction input with
  | nil => intro s st _; exact ⟨st, rfl⟩
  | cons d rest ih =>
    intro s st h
    by_cases hex : d.sqlExists
    · by_cases hty : (d.config.dbType != "MySQL" && d.config.dbType != "PostgreSQL")
      · obtain ⟨st2, he2⟩ := ih s st (fun x hx => h x (List.mem_cons_of_mem _ hx))
        refine ⟨st2, ?_⟩
        simp only [buildCatalogDbs, hex, hty]
        simpa using he2
      · have hprov : DbProvided s d := h d (List.mem_cons_self _ _) (by simp [dbProcessed, hex, hty])
        obtain ⟨h1, h2, h3, h4⟩ := hprov
        obtain ⟨st2, he2⟩ := ih s _ (fun x hx => h x (List.mem_cons_of_mem _ hx))
        refine ⟨st2, ?_⟩
        simp only [buildCatalogDbs, hex, hty, Bool.not_true, Bool.not_false,
          Bool.false_eq_true, if_false, if_true, createDatabaseEntity,
          createEntitySkipExisting_absorb s _ _ h1,
          createTableEntities_absorb now d.config d.tables s h2,
          createColumnEntities_absorb d.config d.tables s 0 h3,
          createForeignKeyRelations_absorb d.config (d.tables.map Prod.fst) d.tables s 0 h4]
        exact he2
    · obtain ⟨st2, he2⟩ := ih s st (fun x hx => h x (List.mem_cons_of_mem _ hx))
      refine ⟨st2, ?_⟩
      have hex' : d.sqlExists = false := by simpa using hex
      simp only [buildCatalogDbs, hex', Bool.not_false, if_true]
      exact he2

/-- `build_entity_catalog` against a fully provided store changes
nothing: every create of the run resolves as AlreadyExists and is
treated as success. -/
theorem buildEntityCatalog_absorb (now : String) (input : List DbInput) (s : Store)
    (howner : hasEntity s defaultOwnerName = true)
    (htags : ∀ tg ∈ commonTags, hasEntity s tg.1 = true)
    (hdbs : ∀ d ∈ input, dbProcessed d = true → DbProvided s d) :
    ∃ st, buildEntityCatalog now input s = .ok (s, st) := by
  obtain ⟨st3, he3⟩ := buildCatalogDbs_absorb now input s
    { databases := 0, tables := 0, columns := 0, foreign_keys := 0 } hdbs
  refine ⟨st3, ?_⟩
  simp only [buildEntityCatalog, createTags, createOwnerEntity,
    createEntitySkipExisting_absorb s _ _ howner,
    createTagsFrom_absorb commonTags s htags]
  exact he3

/-- C1: running the full catalog build twice against identical input and
an initially empty store leaves the store in the same final state as
running it once.  Both runs return success — every create that collides
raises AlreadyExists, is caught by the `already exists` handler and
treated as success, so no create collision is ever surfaced as an
error — and the second run (whatever timestamps it observes) changes
nothing: its final store is exactly the first run's store. -/
theorem c1_catalog_build_idempotent (t1 t2 : String) (input : List DbInput) :
    ∃ s1 st1 st2,
      buildEntityCatalog t1 input emptyStore = .ok (s1, st1)
      ∧ buildEntityCatalog t2 input s1 = .ok (s1, st2) := by
  obtain ⟨s1, st1, hrun, _, howner, htags, hdbs⟩ := buildEntityCatalog_spec t1 input emptyStore
  obtain ⟨st2, hrun2⟩ := buildEntityCatalog_absorb t2 input s1 howner htags hdbs
  exact ⟨s1, st1, st2, hrun, hrun2⟩

/-- C10: `create_column_entities` returns exactly the number of column
entities newly created in this run — the growth of the store's entity
list, not the number of columns processed — and whenever a column's
entity create resolves as already-exists the per-column step leaves the
store untouched (no HAS_COLUMN relation, no TAGGED relations) and the
count unchanged. -/
theorem c10_column_count_semantics (cfg : DbConfig) (tables : List (String × Table)) (s : Store) :
    (∃ s' n, createColumnEntities cfg tables s 0 = .ok (s', n)
       ∧ n + s.entities.length = s'.entities.length)
    ∧ ∀ (tn : String) (idx k : Nat) (c : Column) (st : Store),
        hasEntity st (columnEntityName cfg tn c) = true →
        processColumn cfg tn idx c st k = .ok (st, k) := by
  constructor
  · obtain ⟨s', n, he, _, hlen, _⟩ := createColumnEntities_spec cfg tables s 0
    exact ⟨s', n, he, by omega⟩
  · intro tn idx k c st h
    exact processColumn_absorb cfg tn idx c st k h

/-- C10 witness: the theorem applied at a concrete store that already
holds the column entity. -/
theorem c10_column_count_semantics_witness :
    (∃ s' n, createColumnEntities mysqlDbConfig [] emptyStore 0 = .ok (s', n)
       ∧ n + emptyStore.entities.length = s'.entities.length)
    ∧ processColumn mysqlDbConfig "users" 1 { name := "id", data_type := "INT" }
        (addEntity emptyStore
          (columnEntityName mysqlDbConfig "users" { name := "id", data_type := "INT" }) [])
        0
      = .ok (addEntity emptyStore
          (columnEntityName mysqlDbConfig "users" { name := "id", data_type := "INT" }) [], 0) :=
  ⟨(c10_column_count_semantics mysqlDbConfig [] emptyStore).1,
   (c10_column_count_semantics mysqlDbConfig [] emptyStore).2 "users" 1 0 _ _ (by decide)⟩
